import Mathlib

/-!
# websocket-multiplayer: world state, physics tick, lifecycle and broadcast

A shallow embedding of `internal/game/game.go`, `internal/models` and the
broadcast path of `internal/websocket/handler.go`.

Modelling conventions.

* `float64` values are elements of an arbitrary linearly ordered field `K`
  (exact arithmetic: rounding, overflow, infinities and NaN are outside the
  model).  All definitions are executable at `K = ℚ`.
* The functions of Go's `math` package that the code calls (`Sqrt`, `Atan2`,
  `Cos`, `Sin`) are not part of the repository; they are the fields of a
  `MathOps K` record that the operations take as a parameter.
* The Go map `Players map[string]*Player` is an association list
  `List (String × Player K)`.  The order of the list is the order in which a
  `range` loop enumerates the map, which Go leaves unspecified; a statement
  quantified over every list therefore covers every enumeration order.
  The collision loops of `Tick` hold two nested `range` statements, each with
  an order of its own: `TickIn` takes these orders as arguments, and `Tick` is
  the run in which all of them are the order of the list.
* `time.Time` values are integers (an instant); every reading of `time.Now()`
  is an explicit argument.
* `json.Marshal` and the results of `rand.Intn` are parameters as well.
-/

namespace Game

/-- The instants of `time.Time`. -/
abbrev Time := Int

/-- The struct `models.Player`; `Conn` is the connection handle (`none` is `nil`). -/
structure Player (K : Type) where
  ID : String
  PlayerNum : Int
  Name : String
  X : K
  Y : K
  Vx : K
  Vy : K
  Color : String
  JoinedAt : Time
  LastSeen : Time
  Conn : Option Nat
deriving DecidableEq, Repr

/-- The struct `models.GameState` (the mutex is not modelled). -/
structure GameState (K : Type) where
  Players : List (String × Player K)
  PlayerCount : Int
deriving DecidableEq, Repr

/-- The functions of Go's `math` package used by the code. -/
structure MathOps (K : Type) where
  sqrt : K → K
  atan2 : K → K → K
  cos : K → K
  sin : K → K

/-- The function `models.NewGameState`: an empty table, counter zero. -/
def NewGameState (K : Type) : GameState K :=
  { Players := [], PlayerCount := 0 }

/-- Map read `m[id]`: the first entry with the key. -/
def lookup {K : Type} (id : String) : List (String × Player K) → Option (Player K)
  | [] => none
  | (k, p) :: rest => if k = id then some p else lookup id rest

/-- Write through the pointer stored under `id`: every entry with the key is replaced. -/
def setPlayer {K : Type} (id : String) (p : Player K) (ps : List (String × Player K)) :
    List (String × Player K) :=
  ps.map (fun e => if e.1 = id then (e.1, p) else e)

/-- Map write `m[id] = p`: replace the entry when the key is present, else add one. -/
def insert {K : Type} (id : String) (p : Player K) (ps : List (String × Player K)) :
    List (String × Player K) :=
  match lookup id ps with
  | some _ => setPlayer id p ps
  | none => ps ++ [(id, p)]

/-- The builtin `delete(m, id)`. -/
def delete {K : Type} (id : String) (ps : List (String × Player K)) :
    List (String × Player K) :=
  ps.filter (fun e => e.1 ≠ id)

/-- The method `Game.GetPlayer`. -/
def GetPlayer {K : Type} (st : GameState K) (playerID : String) : Option (Player K) :=
  lookup playerID st.Players

section Physics

variable {K : Type} [LinearOrderedField K]

/-- Step 1 of `Tick`, position: `p.X += p.Vx; p.Y += p.Vy`. -/
def applyVelocity (p : Player K) : Player K :=
  { p with X := p.X + p.Vx, Y := p.Y + p.Vy }

/-- Step 1 of `Tick`, friction: `p.Vx *= friction; p.Vy *= friction`. -/
def applyFriction (p : Player K) : Player K :=
  { p with Vx := p.Vx * (98 / 100), Vy := p.Vy * (98 / 100) }

/-- Step 2 of `Tick`: `if p.X < playerRadius`. -/
def boundLeft (p : Player K) : Player K :=
  if p.X < 15 then { p with X := 15, Vx := p.Vx * (-(7 / 10)) } else p

/-- Step 2 of `Tick`: `if p.X > w-playerRadius`. -/
def boundRight (p : Player K) : Player K :=
  if p.X > 800 - 15 then { p with X := 800 - 15, Vx := p.Vx * (-(7 / 10)) } else p

/-- Step 2 of `Tick`: `if p.Y < playerRadius`. -/
def boundTop (p : Player K) : Player K :=
  if p.Y < 15 then { p with Y := 15, Vy := p.Vy * (-(7 / 10)) } else p

/-- Step 2 of `Tick`: `if p.Y > h-playerRadius`. -/
def boundBottom (p : Player K) : Player K :=
  if p.Y > 600 - 15 then { p with Y := 600 - 15, Vy := p.Vy * (-(7 / 10)) } else p

/-- Steps 1 and 2 of `Tick` for one participant, in the order of the loop body: integration,
friction, then the four wall checks. -/
def integrate (p : Player K) : Player K :=
  boundBottom (boundTop (boundRight (boundLeft (applyFriction (applyVelocity p)))))

/-- The value `dist` of the collision loop for the pair `(a, b)`. -/
def pairDist (ops : MathOps K) (a b : Player K) : K :=
  ops.sqrt ((b.X - a.X) * (b.X - a.X) + (b.Y - a.Y) * (b.Y - a.Y))

/-- The guard `dist < minDistance && dist > 0` of the collision loop. -/
def collides (ops : MathOps K) (a b : Player K) : Prop :=
  pairDist ops a b < 15 * 2 ∧ pairDist ops a b > 0

instance (ops : MathOps K) (a b : Player K) : Decidable (collides ops a b) := by
  unfold collides
  exact inferInstance

/-- The body of the collision loop for the pair `(a, b)`: separation and exchange of the
normal velocity component, when the guard holds. -/
def resolvePair (ops : MathOps K) (a b : Player K) : Player K × Player K :=
  let dx := b.X - a.X
  let dy := b.Y - a.Y
  let dist := pairDist ops a b
  if collides ops a b then
    let overlap := 15 * 2 - dist
    let pushX := (dx / dist) * (overlap / 2)
    let pushY := (dy / dist) * (overlap / 2)
    let a := { a with X := a.X - pushX, Y := a.Y - pushY }
    let b := { b with X := b.X + pushX, Y := b.Y + pushY }
    let nx := dx / dist
    let ny := dy / dist
    let va := a.Vx * nx + a.Vy * ny
    let vb := b.Vx * nx + b.Vy * ny
    let a' := { a with Vx := a.Vx + (vb - va) * nx, Vy := a.Vy + (vb - va) * ny }
    let b' := { b with Vx := b.Vx + (va - vb) * nx, Vy := b.Vy + (va - vb) * ny }
    (a', b')
  else (a, b)

/-- One iteration of the inner collision loop: the pair `(idA, idB)` is skipped when
`idA >= idB`; otherwise both participants are read through their pointers, resolved and
written back. -/
def collideStep (ops : MathOps K) (idA idB : String) (ps : List (String × Player K)) :
    List (String × Player K) :=
  if idA ≥ idB then ps
  else
    match lookup idA ps, lookup idB ps with
    | some a, some b =>
      let r := resolvePair ops a b
      setPlayer idB r.2 (setPlayer idA r.1 ps)
    | _, _ => ps

/-- The nested collision loops with the order of every `range` statement explicit: `outer`
is the order in which the outer `range players` yields the keys, and `inner idA` is the order
in which the inner `range players`, run for the outer key `idA`, yields them.  Go chooses such
an order afresh at each `range` statement. -/
def collideAllIn (ops : MathOps K) (outer : List String) (inner : String → List String)
    (ps : List (String × Player K)) : List (String × Player K) :=
  outer.foldl
    (fun acc idA => (inner idA).foldl (fun acc2 idB => collideStep ops idA idB acc2) acc) ps

/-- The nested collision loops in the run in which every `range` statement yields the keys
in the order of the list: `collideAllIn` with that order for the outer and every inner
loop. -/
def collideAll (ops : MathOps K) (ps : List (String × Player K)) : List (String × Player K) :=
  collideAllIn ops (ps.map Prod.fst) (fun _ => ps.map Prod.fst) ps

/-- The method `Game.Tick`, in the run in which every `range` statement yields the keys in
the order of the list. -/
def Tick (ops : MathOps K) (st : GameState K) : GameState K :=
  let ps := st.Players.map (fun e => (e.1, integrate e.2))
  { st with Players := collideAll ops ps }

/-- The method `Game.Tick` with the order of every `range` statement of the collision loops
explicit (see `collideAllIn`); the integration loop treats each participant on its own. -/
def TickIn (ops : MathOps K) (outer : List String) (inner : String → List String)
    (st : GameState K) : GameState K :=
  let ps := st.Players.map (fun e => (e.1, integrate e.2))
  { st with Players := collideAllIn ops outer inner ps }

/-- Division with the divisor checked: `none` when the divisor is zero.  (In Go a float64
division by zero does not fail; the check records that such a division was evaluated.) -/
def divChecked (x d : K) : Option K :=
  if d = 0 then none else some (x / d)

/-- The body of the collision loop for the pair `(a, b)` as in `resolvePair`, with each of the
four divisions by `dist` checked: `none` when a division by a zero `dist` is evaluated. -/
def resolvePairChecked (ops : MathOps K) (a b : Player K) : Option (Player K × Player K) :=
  let dx := b.X - a.X
  let dy := b.Y - a.Y
  let dist := pairDist ops a b
  if collides ops a b then
    let overlap := 15 * 2 - dist
    (divChecked dx dist).bind fun qx =>
    (divChecked dy dist).bind fun qy =>
    let pushX := qx * (overlap / 2)
    let pushY := qy * (overlap / 2)
    let a := { a with X := a.X - pushX, Y := a.Y - pushY }
    let b := { b with X := b.X + pushX, Y := b.Y + pushY }
    (divChecked dx dist).bind fun nx =>
    (divChecked dy dist).bind fun ny =>
    let va := a.Vx * nx + a.Vy * ny
    let vb := b.Vx * nx + b.Vy * ny
    let a' := { a with Vx := a.Vx + (vb - va) * nx, Vy := a.Vy + (vb - va) * ny }
    let b' := { b with Vx := b.Vx + (va - vb) * nx, Vy := b.Vy + (va - vb) * ny }
    some (a', b')
  else some (a, b)

/-- One iteration of the inner collision loop as in `collideStep`, with the divisions
checked. -/
def collideStepChecked (ops : MathOps K) (idA idB : String) (ps : List (String × Player K)) :
    Option (List (String × Player K)) :=
  if idA ≥ idB then some ps
  else
    match lookup idA ps, lookup idB ps with
    | some a, some b =>
      (resolvePairChecked ops a b).map fun r => setPlayer idB r.2 (setPlayer idA r.1 ps)
    | _, _ => some ps

/-- The nested collision loops as in `collideAllIn`, with the divisions checked. -/
def collideAllInChecked (ops : MathOps K) (outer : List String) (inner : String → List String)
    (ps : List (String × Player K)) : Option (List (String × Player K)) :=
  outer.foldlM
    (fun acc idA => (inner idA).foldlM (fun acc2 idB => collideStepChecked ops idA idB acc2) acc)
    ps

/-- The method `Game.Tick` as in `TickIn`, with the divisions by `dist` checked: `none` when
some division by a zero `dist` is evaluated. -/
def TickInChecked (ops : MathOps K) (outer : List String) (inner : String → List String)
    (st : GameState K) : Option (GameState K) :=
  let ps := st.Players.map (fun e => (e.1, integrate e.2))
  (collideAllInChecked ops outer inner ps).map fun ps' => { st with Players := ps' }

end Physics

/-- The format `fmt.Sprintf("Player %d", n)`. -/
def sprintfPlayer (n : Int) : String :=
  "Player " ++ toString n

/-- The method `Game.AddPlayer`; `now₁` and `now₂` are the two readings of `time.Now()`. -/
def AddPlayer {K : Type} (st : GameState K) (player : Player K) (now₁ now₂ : Time) :
    GameState K :=
  let count := st.PlayerCount + 1
  let player := { player with PlayerNum := count }
  let player :=
    if player.Name = "" then { player with Name := sprintfPlayer player.PlayerNum } else player
  let player := { player with JoinedAt := now₁ }
  let player := { player with LastSeen := now₂ }
  { Players := insert player.ID player st.Players, PlayerCount := count }

/-- The local struct `playerInfo` of `reorderPlayers`. -/
structure playerInfo where
  id : String
  joinedAt : Time
deriving DecidableEq, Repr

/-- The comparison passed to `sort.Slice`: `joinedAt.Before`. -/
def infoLess (a b : playerInfo) : Prop :=
  a.joinedAt < b.joinedAt

instance : DecidableRel infoLess := fun a b => by
  unfold infoLess
  exact inferInstance

/-- The library call `sort.Slice(players, less)`: an insertion sort that puts `a` before `b`
unless `less b a`.  Elements that `less` does not separate keep the order of the input,
which is the (unspecified) enumeration order of the table. -/
def sortSlice (l : List playerInfo) : List playerInfo :=
  l.insertionSort (fun a b => ¬ infoLess b a)

/-- The reassignment loop of `reorderPlayers`, from index `i` on. -/
def renumber {K : Type} : List playerInfo → Nat → List (String × Player K) →
    List (String × Player K)
  | [], _, ps => ps
  | info :: rest, i, ps =>
    match lookup info.id ps with
    | some player =>
      let player := { player with PlayerNum := (i : Int) + 1 }
      let player := { player with Name := sprintfPlayer player.PlayerNum }
      renumber rest (i + 1) (setPlayer info.id player ps)
    | none => renumber rest (i + 1) ps

/-- The method `Game.reorderPlayers`. -/
def reorderPlayers {K : Type} (st : GameState K) : GameState K :=
  let players := st.Players.map (fun e => ({ id := e.1, joinedAt := e.2.JoinedAt } : playerInfo))
  let players := sortSlice players
  let ps := renumber players 0 st.Players
  { Players := ps, PlayerCount := (ps.length : Int) }

/-- The method `Game.RemovePlayer`. -/
def RemovePlayer {K : Type} (st : GameState K) (playerID : String) : GameState K :=
  match lookup playerID st.Players with
  | some _ => reorderPlayers { st with Players := delete playerID st.Players }
  | none => st

/-- The method `Game.GetAllPlayers`: a copy of every participant without its connection. -/
def GetAllPlayers {K : Type} (st : GameState K) : List (String × Player K) :=
  st.Players.map (fun e => (e.1, { e.2 with Conn := none }))

section Placement

variable {K : Type} [LinearOrderedField K]

/-- The inner loop of `GetRandomPosition`: does `(x, y)` collide with some participant. -/
def spawnCollision (ps : List (String × Player K)) (x y : K) : Bool :=
  ps.any (fun e =>
    decide ((x - e.2.X) * (x - e.2.X) + (y - e.2.Y) * (y - e.2.Y) < (15 * 2) * (15 * 2)))

/-- The trial loop of `GetRandomPosition` with `n` trials left; `draws attempt` holds the two
results of `rand.Intn(800)` and `rand.Intn(600)` of the trial. -/
def randomPositionLoop (ps : List (String × Player K)) (draws : Nat → Nat × Nat) :
    Nat → Nat → K × K
  | 0, _ => (400, 300)
  | n + 1, attempt =>
    let x : K := ((draws attempt).1 : K)
    let y : K := ((draws attempt).2 : K)
    if x < 15 ∨ x > 785 ∨ y < 15 ∨ y > 585 then randomPositionLoop ps draws n (attempt + 1)
    else if spawnCollision ps x y then randomPositionLoop ps draws n (attempt + 1)
    else (x, y)

/-- The method `Game.GetRandomPosition` (`maxAttempts` is 100). -/
def GetRandomPosition (st : GameState K) (draws : Nat → Nat × Nat) : K × K :=
  randomPositionLoop st.Players draws 100 0

/-- The scan loop of `UpdatePlayerPosition`: the values of `bounceX`, `bounceY` and
`hasCollision` when the loop ends (it stops at the first collision). -/
def bounceScan (ops : MathOps K) (playerID : String) (x y : K) :
    List (String × Player K) → K × K × Bool
  | [] => (x, y, false)
  | (id, otherPlayer) :: rest =>
    if id = playerID then bounceScan ops playerID x y rest
    else
      let dx := x - otherPlayer.X
      let dy := y - otherPlayer.Y
      let distance := dx * dx + dy * dy
      if distance < (15 * 2) * (15 * 2) then
        let angle := ops.atan2 dy dx
        let bounceX := otherPlayer.X + ops.cos angle * (15 * 2)
        let bounceY := otherPlayer.Y + ops.sin angle * (15 * 2)
        let bounceX := if bounceX < 15 then 15 else if bounceX > 785 then 785 else bounceX
        let bounceY := if bounceY < 15 then 15 else if bounceY > 585 then 585 else bounceY
        (bounceX, bounceY, true)
      else bounceScan ops playerID x y rest

/-- The method `Game.UpdatePlayerPosition`; `now` is the reading of `time.Now()`. -/
def UpdatePlayerPosition (ops : MathOps K) (st : GameState K) (playerID : String) (x y : K)
    (now : Time) : GameState K :=
  match lookup playerID st.Players with
  | none => st
  | some player =>
    if x < 15 ∨ x > 785 ∨ y < 15 ∨ y > 585 then st
    else
      let r := bounceScan ops playerID x y st.Players
      let player :=
        if r.2.2 then { player with X := r.1, Y := r.2.1 } else { player with X := x, Y := y }
      let player := { player with LastSeen := now }
      { st with Players := setPlayer playerID player st.Players }

end Placement

/-- The struct `ws.Handler`: the game and the baseline `lastGameState` (`none` is `nil`). -/
structure Handler (K : Type) where
  game : GameState K
  lastGameState : Option (List (String × Player K))

/-- The bytes `string(b)` of a `json.Marshal` result whose error is dropped: empty on error. -/
def bytesOf (r : Option String) : String :=
  r.getD ""

/-- The method `Handler.broadcastGameState`.  `marshal` is `json.Marshal` on a snapshot,
`marshalMsg` is `json.Marshal` on the `game_state` message that carries it (`none` is an
error).  The result is the handler afterwards and the list of `(connection, data)` writes. -/
def broadcastGameState {K : Type} (marshal marshalMsg : List (String × Player K) → Option String)
    (h : Handler K) : Handler K × List (Nat × String) :=
  let players := GetAllPlayers h.game
  match marshal players with
  | none => (h, [])
  | some currentState =>
    let unchanged : Bool :=
      match h.lastGameState with
      | some last => decide (currentState = bytesOf (marshal last))
      | none => false
    if unchanged then (h, [])
    else
      match marshalMsg players with
      | none => (h, [])
      | some data =>
        ({ h with lastGameState := some players },
          h.game.Players.filterMap (fun e => e.2.Conn.map (fun c => (c, data))))

section Input

variable {K : Type} [LinearOrderedField K]

/-- The method `Game.ApplyInput`: the `switch key` on a present participant (`speed` is 2.5);
a key outside `w`, `s`, `a`, `d` writes nothing. -/
def ApplyInput (st : GameState K) (playerID key : String) : GameState K :=
  match lookup playerID st.Players with
  | none => st
  | some p =>
    if key = "w" then
      { st with Players := setPlayer playerID { p with Vy := p.Vy - 5 / 2 } st.Players }
    else if key = "s" then
      { st with Players := setPlayer playerID { p with Vy := p.Vy + 5 / 2 } st.Players }
    else if key = "a" then
      { st with Players := setPlayer playerID { p with Vx := p.Vx - 5 / 2 } st.Players }
    else if key = "d" then
      { st with Players := setPlayer playerID { p with Vx := p.Vx + 5 / 2 } st.Players }
    else st

/-- Modelled from the spec: the method `Game.ApplyVelocityInput`, which `handleMessage` calls
and whose body is not among the sources.  Spec, Input Application: "Continuous velocity input
(vx, vy pair): sets the participant's velocity directly to the supplied vector", "silently a
no-op if the id is absent". -/
def ApplyVelocityInput (st : GameState K) (playerID : String) (vx vy : K) : GameState K :=
  match lookup playerID st.Players with
  | none => st
  | some p => { st with Players := setPlayer playerID { p with Vx := vx, Vy := vy } st.Players }

/-- The payload of a login message as `handleMessage` reads it: `name` and `color` are the
empty string when the key is missing or not a string; `lastPosition` is `none` when the key is
missing or not an object, and otherwise holds `x` and `y`, each `none` when it is missing or
not a number. -/
structure LoginPayload (K : Type) where
  name : String
  color : String
  lastPosition : Option (Option K × Option K)

/-- The login branch of `handleMessage`, "Set player properties": name and color
(`randomColor` is the result of `GetRandomColor`). -/
def loginProperties (player : Player K) (payload : LoginPayload K) (randomColor : String) :
    Player K :=
  { player with
    Name := payload.name,
    Color := if payload.color ≠ "" then payload.color else randomColor }

/-- The login branch of `handleMessage`, "Set position": the client's `lastPosition` when the
payload has one (each coordinate only when present), else `GetRandomPosition`. -/
def loginPosition (st : GameState K) (player : Player K) (payload : LoginPayload K)
    (draws : Nat → Nat × Nat) : Player K :=
  match payload.lastPosition with
  | some (ox, oy) =>
    { player with
      X := match ox with
        | some x => x
        | none => player.X,
      Y := match oy with
        | some y => y
        | none => player.Y }
  | none =>
    { player with X := (GetRandomPosition st draws).1, Y := (GetRandomPosition st draws).2 }

/-- The login branch of `handleMessage` up to `h.game.AddPlayer(player)`: the game state
afterwards (the messages sent after it do not change the state). -/
def handleLogin (st : GameState K) (player : Player K) (payload : LoginPayload K)
    (randomColor : String) (draws : Nat → Nat × Nat) (now₁ now₂ : Time) : GameState K :=
  AddPlayer st (loginPosition st (loginProperties player payload randomColor) payload draws)
    now₁ now₂

/-- The participant record that `HandleWebSocket` creates for a new connection: only `ID`,
`Conn` and `LastSeen` are set, every other field has its zero value. -/
def newConnection (playerID : String) (conn : Nat) (now : Time) : Player K :=
  { ID := playerID, PlayerNum := 0, Name := "", X := 0, Y := 0, Vx := 0, Vy := 0, Color := "",
    JoinedAt := 0, LastSeen := now, Conn := some conn }

end Input

/-- Four exact directions for the rational instance: the angle is counted in quarter turns. -/
def quarterAtan2 (y x : ℚ) : ℚ :=
  if y = 0 then (if x < 0 then 2 else 0) else if y > 0 then 1 else -1

/-- Cosine of an angle counted in quarter turns (exact at whole quarter turns). -/
def quarterCos (a : ℚ) : ℚ :=
  if a = 0 then 1 else if a = 2 then -1 else 0

/-- Sine of an angle counted in quarter turns (exact at whole quarter turns). -/
def quarterSin (a : ℚ) : ℚ :=
  if a = 1 then 1 else if a = -1 then -1 else 0

/-- An executable instance of the `math` functions over `ℚ`: `Rat.sqrt` is exact on squares
of rationals, the trigonometric functions are exact on the four axis directions. -/
def ratOps : MathOps ℚ :=
  { sqrt := Rat.sqrt, atan2 := quarterAtan2, cos := quarterCos, sin := quarterSin }

/-- A participant of the example states: only identifier, position and velocity matter. -/
def body (id : String) (x y vx vy : ℚ) : Player ℚ :=
  { ID := id, PlayerNum := 0, Name := "", X := x, Y := y, Vx := vx, Vy := vy, Color := "",
    JoinedAt := 0, LastSeen := 0, Conn := none }

/-- Position of the identifier `k` in the sorted slice `l` of `reorderPlayers`. -/
def rank (k : String) : List playerInfo → Nat
  | [] => 0
  | x :: rest => if x.id = k then 0 else rank k rest + 1

/-- A participant after one step of the reassignment loop with `PlayerNum := n`. -/
def renumbered {K : Type} (p : Player K) (n : Int) : Player K :=
  { p with PlayerNum := n, Name := sprintfPlayer n }

/-- The entry of the slice built by `reorderPlayers` for one table entry. -/
def infoOf {K : Type} (e : String × Player K) : playerInfo :=
  { id := e.1, joinedAt := e.2.JoinedAt }

/-- One call of the lifecycle interface of the store: `AddPlayer(player)` with its two
readings of the clock, or `RemovePlayer(playerID)`. -/
inductive LifecycleCall (K : Type) where
  | add (player : Player K) (now₁ now₂ : Time)
  | remove (playerID : String)

/-- The state after one lifecycle call. -/
def applyCall {K : Type} (st : GameState K) : LifecycleCall K → GameState K
  | .add player now₁ now₂ => AddPlayer st player now₁ now₂
  | .remove playerID => RemovePlayer st playerID

/-- The state after a finite sequence of lifecycle calls, applied from left to right. -/
def runCalls {K : Type} (st : GameState K) : List (LifecycleCall K) → GameState K
  | [] => st
  | c :: rest => runCalls (applyCall st c) rest

/-- A call respects freshness in the state `st`: the identifier of an `AddPlayer` is not in
the table; a `RemovePlayer` may name any identifier. -/
def callFresh {K : Type} (st : GameState K) : LifecycleCall K → Prop
  | .add player _ _ => lookup player.ID st.Players = none
  | .remove _ => True

/-- Every `AddPlayer` of the sequence has an identifier that is not in the table at the time of
the call. -/
def freshCalls {K : Type} (st : GameState K) : List (LifecycleCall K) → Prop
  | [] => True
  | c :: rest => callFresh st c ∧ freshCalls (applyCall st c) rest

/-- Whether a map read found nothing is decidable. -/
def decideAbsent {K : Type} (o : Option (Player K)) : Decidable (o = none) :=
  match o with
  | none => isTrue rfl
  | some _ => isFalse (fun h => Option.noConfusion h)

instance {K : Type} (st : GameState K) (c : LifecycleCall K) : Decidable (callFresh st c) :=
  match c with
  | .add player _ _ =>
    show Decidable (lookup player.ID st.Players = none) from decideAbsent _
  | .remove _ => isTrue trivial

/-- Freshness of a sequence of calls is decidable, call by call. -/
def decideFreshCalls {K : Type} :
    (st : GameState K) → (calls : List (LifecycleCall K)) → Decidable (freshCalls st calls)
  | _, [] => isTrue trivial
  | st, c :: rest =>
    haveI := decideFreshCalls (applyCall st c) rest
    show Decidable (callFresh st c ∧ freshCalls (applyCall st c) rest) from inferInstance

instance {K : Type} (st : GameState K) (calls : List (LifecycleCall K)) :
    Decidable (freshCalls st calls) :=
  decideFreshCalls st calls

/-- The counter and numbering invariant of the store: distinct keys, `PlayerCount` is the
number of participants, and the `PlayerNum` values are `1..N`, each once. -/
def numbered {K : Type} (st : GameState K) : Prop :=
  (st.Players.map Prod.fst).Nodup ∧
    st.PlayerCount = (st.Players.length : Int) ∧
    (st.Players.map (fun e => e.2.PlayerNum)).Perm
      ((List.range st.Players.length).map (fun i : Nat => (i : Int) + 1))

/-- The example state with three participants under the keys `"a"`, `"b"`, `"c"`, enumerated
in the order given by the list. -/
def lined (ps : List (String × Player ℚ)) : GameState ℚ :=
  { Players := ps, PlayerCount := 3 }

/-- The example state with the two participants `a` and `b` under the keys `"a"` and `"b"`. -/
def duo (a b : Player ℚ) : GameState ℚ :=
  { Players := [("a", a), ("b", b)], PlayerCount := 2 }

/-- The example state with the single participant `a` under the key `"a"`. -/
def solo (a : Player ℚ) : GameState ℚ :=
  { Players := [("a", a)], PlayerCount := 1 }

/-- The participant stored by the login examples. -/
def admitted (x y : ℚ) : Player ℚ :=
  { ID := "abc", PlayerNum := 1, Name := "eve", X := x, Y := y, Vx := 0, Vy := 0,
    Color := "#FF6B6B", JoinedAt := 1, LastSeen := 1, Conn := some 1 }

/-- A participant of the lifecycle examples: identifier, name and join time. -/
def guest (id name : String) (num : Int) (joined : Time) : Player ℚ :=
  { ID := id, PlayerNum := num, Name := name, X := 400, Y := 300, Vx := 0, Vy := 0, Color := "",
    JoinedAt := joined, LastSeen := joined, Conn := none }

/-- The table after A, B and C joined at the instants 1, 2 and 3 (B with a custom name). -/
def threeJoined : GameState ℚ :=
  AddPlayer (AddPlayer (AddPlayer (NewGameState ℚ) (guest "A" "" 0 0) 1 1)
    (guest "B" "bob" 0 0) 2 2) (guest "C" "carol" 0 0) 3 3

section PhysicsAux

variable {K : Type} [LinearOrderedField K]

/-- Position on one axis after the wall handling, with upper bound `hi`. -/
def clampAxis (hi x : K) : K :=
  if x < 15 then 15 else if x > hi then hi else x

/-- Velocity on one axis after friction and the wall handling, with upper bound `hi`. -/
def bounceAxis (hi x v : K) : K :=
  if x < 15 then v * (98 / 100) * (-(7 / 10))
  else if x > hi then v * (98 / 100) * (-(7 / 10)) else v * (98 / 100)

/-- Squared distance between the centres of two participants. -/
def distSq (a b : Player K) : K :=
  (b.X - a.X) * (b.X - a.X) + (b.Y - a.Y) * (b.Y - a.Y)

/-- The arena inset by the body radius. -/
def inArena (p : Player K) : Prop :=
  15 ≤ p.X ∧ p.X ≤ 785 ∧ 15 ≤ p.Y ∧ p.Y ≤ 585

instance (p : Player K) : Decidable (inArena p) := by
  unfold inArena
  exact inferInstance

/-- Velocity component of `p` along the direction `(nx, ny)`. -/
def along (p : Player K) (nx ny : K) : K :=
  p.Vx * nx + p.Vy * ny

/-- Velocity component of `p` perpendicular to the direction `(nx, ny)`. -/
def across (p : Player K) (nx ny : K) : K :=
  p.Vy * nx - p.Vx * ny

/-- First coordinate of the collision normal of the pair `(a, b)`: `dx / dist`. -/
def normalX (ops : MathOps K) (a b : Player K) : K :=
  (b.X - a.X) / pairDist ops a b

/-- Second coordinate of the collision normal of the pair `(a, b)`: `dy / dist`. -/
def normalY (ops : MathOps K) (a b : Player K) : K :=
  (b.Y - a.Y) / pairDist ops a b

/-- Trial `k` of `GetRandomPosition` is rejected: out of bounds, or colliding. -/
def trialRejected (ps : List (String × Player K)) (draws : Nat → Nat × Nat) (k : Nat) : Prop :=
  (((draws k).1 : K) < 15 ∨ ((draws k).1 : K) > 785 ∨ ((draws k).2 : K) < 15 ∨
    ((draws k).2 : K) > 585) ∨
  spawnCollision ps ((draws k).1 : K) ((draws k).2 : K) = true

/-- The unit direction `(ux, uy)` points from the origin to `(dx, dy)`; for `dx = dy = 0`
it is the direction of angle zero. -/
def unitToward (dx dy ux uy : K) : Prop :=
  ux * ux + uy * uy = 1 ∧
    ((dx = 0 ∧ dy = 0) → (ux = 1 ∧ uy = 0)) ∧
    (¬ (dx = 0 ∧ dy = 0) → ∃ r : K, 0 < r ∧ dx = r * ux ∧ dy = r * uy)

/-- The functions `Atan2`, `Cos` and `Sin` are exact at the vector `(dx, dy)`:
`(cos, sin)` of `atan2 dy dx` is the unit direction of `(dx, dy)`. -/
def trigExactAt (ops : MathOps K) (dx dy : K) : Prop :=
  unitToward dx dy (ops.cos (ops.atan2 dy dx)) (ops.sin (ops.atan2 dy dx))

/-- The proposal `(x, y)` overlaps the participant `o`: squared distance below `900`. -/
def overlaps (x y : K) (o : Player K) : Prop :=
  (x - o.X) * (x - o.X) + (y - o.Y) * (y - o.Y) < 900

end PhysicsAux

/-! ## Lemmas on the participant table -/

section TableLemmas

variable {K : Type}

theorem setPlayer_cons (id : String) (q : Player K) (k : String) (v : Player K)
    (rest : List (String × Player K)) :
    setPlayer id q ((k, v) :: rest) = (if k = id then (k, q) else (k, v)) :: setPlayer id q rest :=
  rfl

theorem lookup_cons (id k : String) (v : Player K) (rest : List (String × Player K)) :
    lookup id ((k, v) :: rest) = if k = id then some v else lookup id rest :=
  rfl

theorem lookup_setPlayer_self (id : String) (q : Player K)
    (ps : List (String × Player K)) (p : Player K) (h : lookup id ps = some p) :
    lookup id (setPlayer id q ps) = some q := by
  induction ps with
  | nil => simp [lookup] at h
  | cons e rest ih =>
    obtain ⟨k, v⟩ := e
    rw [setPlayer_cons]
    by_cases hk : k = id
    · rw [if_pos hk, lookup_cons, if_pos hk]
    · rw [lookup_cons, if_neg hk] at h
      rw [if_neg hk, lookup_cons, if_neg hk]
      exact ih h

theorem lookup_setPlayer_other (id id' : String) (q : Player K)
    (ps : List (String × Player K)) (h : id' ≠ id) :
    lookup id' (setPlayer id q ps) = lookup id' ps := by
  induction ps with
  | nil => rfl
  | cons e rest ih =>
    obtain ⟨k, v⟩ := e
    rw [setPlayer_cons]
    by_cases hk : k = id
    · have hk' : ¬ k = id' := fun e => h (e.symm.trans hk)
      rw [if_pos hk, lookup_cons, if_neg hk', lookup_cons, if_neg hk', ih]
    · rw [if_neg hk, lookup_cons, lookup_cons, ih]

theorem keys_setPlayer (id : String) (q : Player K) (ps : List (String × Player K)) :
    (setPlayer id q ps).map Prod.fst = ps.map Prod.fst := by
  induction ps with
  | nil => rfl
  | cons e rest ih =>
    obtain ⟨k, v⟩ := e
    rw [setPlayer_cons, List.map_cons, List.map_cons, ih]
    by_cases hk : k = id
    · rw [if_pos hk]
    · rw [if_neg hk]

theorem lookup_eq_none_iff (id : String) (ps : List (String × Player K)) :
    lookup id ps = none ↔ id ∉ ps.map Prod.fst := by
  induction ps with
  | nil => simp [lookup]
  | cons e rest ih =>
    obtain ⟨k, v⟩ := e
    rw [lookup_cons]
    by_cases hk : k = id
    · rw [if_pos hk]
      simp [hk]
    · rw [if_neg hk, ih]
      simp only [List.map_cons, List.mem_cons, not_or]
      constructor
      · intro h
        exact ⟨fun e => hk e.symm, h⟩
      · intro h
        exact h.2

theorem lookup_of_mem (ps : List (String × Player K)) (hnd : (ps.map Prod.fst).Nodup)
    (k : String) (v : Player K) (h : (k, v) ∈ ps) : lookup k ps = some v := by
  induction ps with
  | nil => simp at h
  | cons e rest ih =>
    obtain ⟨k', v'⟩ := e
    rw [List.map_cons, List.nodup_cons] at hnd
    rw [lookup_cons]
    rcases List.mem_cons.mp h with h1 | h1
    · have e1 : k = k' := congrArg Prod.fst h1
      have e2 : v = v' := congrArg Prod.snd h1
      rw [if_pos e1.symm, e2]
    · have hk : k ∈ rest.map Prod.fst := List.mem_map.mpr ⟨(k, v), h1, rfl⟩
      have hne : ¬ k' = k := fun e => hnd.1 (e ▸ hk)
      rw [if_neg hne]
      exact ih hnd.2 h1

theorem mem_of_lookup (ps : List (String × Player K)) (k : String) (v : Player K)
    (h : lookup k ps = some v) : (k, v) ∈ ps := by
  induction ps with
  | nil => simp [lookup] at h
  | cons e rest ih =>
    obtain ⟨k', v'⟩ := e
    rw [lookup_cons] at h
    by_cases hk : k' = k
    · rw [if_pos hk] at h
      have : v' = v := Option.some.inj h
      rw [hk, this]
      exact List.mem_cons_self _ _
    · rw [if_neg hk] at h
      exact List.mem_cons_of_mem _ (ih h)

theorem keys_delete (id : String) (ps : List (String × Player K)) :
    (delete id ps).map Prod.fst = (ps.map Prod.fst).filter (fun k => decide (k ≠ id)) := by
  unfold delete
  rw [List.filter_map]
  rfl

theorem lookup_delete_other (id k : String) (ps : List (String × Player K)) (h : k ≠ id) :
    lookup k (delete id ps) = lookup k ps := by
  induction ps with
  | nil => rfl
  | cons e rest ih =>
    obtain ⟨k', v'⟩ := e
    unfold delete at ih ⊢
    by_cases hk : k' = id
    · have hne : ¬ k' = k := fun e => h (e.symm.trans hk)
      rw [List.filter_cons_of_neg (by simp [hk]), lookup_cons, if_neg hne, ih]
    · rw [List.filter_cons_of_pos (by simp [hk]), lookup_cons, lookup_cons, ih]

theorem keys_renumber (l : List playerInfo) (i : Nat) (ps : List (String × Player K)) :
    (renumber l i ps).map Prod.fst = ps.map Prod.fst := by
  induction l generalizing i ps with
  | nil => rfl
  | cons x rest ih =>
    unfold renumber
    cases h : lookup x.id ps with
    | none => exact ih (i + 1) ps
    | some player =>
      simp only
      rw [ih, keys_setPlayer]

theorem lookup_renumber_notin (l : List playerInfo) (i : Nat) (ps : List (String × Player K))
    (k : String) (hk : k ∉ l.map playerInfo.id) :
    lookup k (renumber l i ps) = lookup k ps := by
  induction l generalizing i ps with
  | nil => rfl
  | cons x rest ih =>
    rw [List.map_cons, List.mem_cons, not_or] at hk
    unfold renumber
    cases h : lookup x.id ps with
    | none => exact ih (i + 1) ps hk.2
    | some player =>
      simp only
      rw [ih _ _ hk.2, lookup_setPlayer_other _ _ _ _ hk.1]

theorem lookup_renumber (l : List playerInfo) (i : Nat) (ps : List (String × Player K))
    (k : String) (p : Player K) (hnd : (l.map playerInfo.id).Nodup)
    (hk : k ∈ l.map playerInfo.id) (hp : lookup k ps = some p) :
    lookup k (renumber l i ps) = some (renumbered p (((i + rank k l : Nat) : Int) + 1)) := by
  induction l generalizing i ps with
  | nil => simp at hk
  | cons x rest ih =>
    rw [List.map_cons, List.nodup_cons] at hnd
    unfold renumber
    by_cases hx : x.id = k
    · have hr : rank k (x :: rest) = 0 := by
        unfold rank
        rw [if_pos hx]
      rw [hx, hp]
      simp only
      rw [lookup_renumber_notin _ _ _ _ (hx ▸ hnd.1), lookup_setPlayer_self _ _ _ p hp, hr]
      rfl
    · have hr : rank k (x :: rest) = rank k rest + 1 := by
        show (if x.id = k then 0 else rank k rest + 1) = rank k rest + 1
        rw [if_neg hx]
      have hk' : k ∈ rest.map playerInfo.id := by
        rcases List.mem_cons.mp hk with h | h
        · exact absurd h.symm hx
        · exact h
      have e : i + (rank k rest + 1) = i + 1 + rank k rest := by omega
      rw [hr, e]
      cases h : lookup x.id ps with
      | none => exact ih (i + 1) ps hnd.2 hk' hp
      | some player =>
        simp only
        apply ih (i + 1) _ hnd.2 hk'
        rw [lookup_setPlayer_other _ _ _ _ (fun e => hx e.symm)]
        exact hp

theorem map_rank_eq_range (l : List playerInfo) (hnd : (l.map playerInfo.id).Nodup) :
    (l.map playerInfo.id).map (fun k => rank k l) = List.range l.length := by
  induction l with
  | nil => rfl
  | cons x rest ih =>
    rw [List.map_cons, List.nodup_cons] at hnd
    rw [List.map_cons, List.map_cons, List.length_cons, List.range_succ_eq_map]
    have h0 : rank x.id (x :: rest) = 0 := by
      show (if x.id = x.id then 0 else rank x.id rest + 1) = 0
      rw [if_pos rfl]
    rw [h0, ← ih hnd.2]
    congr 1
    simp only [List.map_map]
    apply List.map_congr_left
    intro c hc
    show (if x.id = c.id then 0 else rank c.id rest + 1) = _
    have hx : ¬ x.id = c.id := fun e => hnd.1 (e ▸ List.mem_map.mpr ⟨c, hc, rfl⟩)
    rw [if_neg hx]
    rfl

theorem rank_lt_of_sorted (l : List playerInfo) (hnd : (l.map playerInfo.id).Nodup)
    (hs : l.Pairwise (fun a b => ¬ infoLess b a)) (a b : playerInfo) (ha : a ∈ l) (hb : b ∈ l)
    (h : infoLess a b) : rank a.id l < rank b.id l := by
  induction l with
  | nil => simp at ha
  | cons x rest ih =>
    rw [List.map_cons, List.nodup_cons] at hnd
    rw [List.pairwise_cons] at hs
    have hirr : ∀ c : playerInfo, ¬ infoLess c c := fun c => lt_irrefl c.joinedAt
    have hmem : ∀ c : playerInfo, c ∈ rest → ¬ x.id = c.id := fun c hc e =>
      hnd.1 (e ▸ List.mem_map.mpr ⟨c, hc, rfl⟩)
    rcases List.mem_cons.mp ha with ha1 | ha1
    · rcases List.mem_cons.mp hb with hb1 | hb1
      · rw [ha1, hb1] at h
        exact absurd h (hirr x)
      · have r1 : rank a.id (x :: rest) = 0 := by
          show (if x.id = a.id then 0 else rank a.id rest + 1) = 0
          rw [if_pos (by rw [ha1])]
        have r2 : rank b.id (x :: rest) = rank b.id rest + 1 := by
          show (if x.id = b.id then 0 else rank b.id rest + 1) = _
          rw [if_neg (hmem b hb1)]
        omega
    · rcases List.mem_cons.mp hb with hb1 | hb1
      · rw [hb1] at h
        exact absurd h (hs.1 a ha1)
      · have r1 : rank a.id (x :: rest) = rank a.id rest + 1 := by
          show (if x.id = a.id then 0 else rank a.id rest + 1) = _
          rw [if_neg (hmem a ha1)]
        have r2 : rank b.id (x :: rest) = rank b.id rest + 1 := by
          show (if x.id = b.id then 0 else rank b.id rest + 1) = _
          rw [if_neg (hmem b hb1)]
        have := ih hnd.2 hs.2 ha1 hb1
        omega

theorem sortSlice_perm (l : List playerInfo) : (sortSlice l).Perm l :=
  List.perm_insertionSort _ l

theorem sortSlice_sorted (l : List playerInfo) :
    (sortSlice l).Pairwise (fun a b => ¬ infoLess b a) := by
  haveI : IsTotal playerInfo (fun a b => ¬ infoLess b a) :=
    ⟨fun a b => by
      unfold infoLess
      rcases le_total a.joinedAt b.joinedAt with h | h
      · exact Or.inl (not_lt.mpr h)
      · exact Or.inr (not_lt.mpr h)⟩
  haveI : IsTrans playerInfo (fun a b => ¬ infoLess b a) :=
    ⟨fun a b c h1 h2 => by
      unfold infoLess at h1 h2 ⊢
      exact not_lt.mpr (le_trans (not_lt.mp h1) (not_lt.mp h2))⟩
  exact List.sorted_insertionSort _ l

theorem reorderPlayers_players (st : GameState K) :
    (reorderPlayers st).Players = renumber (sortSlice (st.Players.map infoOf)) 0 st.Players :=
  rfl

theorem sortedIds_perm (ps : List (String × Player K)) :
    ((sortSlice (ps.map infoOf)).map playerInfo.id).Perm (ps.map Prod.fst) := by
  have h := (sortSlice_perm (ps.map infoOf)).map playerInfo.id
  rw [List.map_map] at h
  exact h

/-- Every entry of the table after `reorderPlayers` is an entry of the table before, with
its `PlayerNum` set to its position in the sorted slice plus one and its name reset. -/
theorem reorderPlayers_entry (st : GameState K) (hnd : (st.Players.map Prod.fst).Nodup)
    (k : String) (v : Player K) (h : (k, v) ∈ (reorderPlayers st).Players) :
    ∃ p, lookup k st.Players = some p ∧
      v = renumbered p (((rank k (sortSlice (st.Players.map infoOf)) : Nat) : Int) + 1) := by
  rw [reorderPlayers_players] at h
  have hkeys := keys_renumber (sortSlice (st.Players.map infoOf)) 0 st.Players
  have hk : k ∈ st.Players.map Prod.fst := by
    rw [← hkeys]
    exact List.mem_map.mpr ⟨(k, v), h, rfl⟩
  have hl := lookup_of_mem _ (by rw [hkeys]; exact hnd) k v h
  cases hp : lookup k st.Players with
  | none => exact absurd hk ((lookup_eq_none_iff k st.Players).mp hp)
  | some p =>
    refine ⟨p, rfl, ?_⟩
    have hr := lookup_renumber (sortSlice (st.Players.map infoOf)) 0 st.Players k p
      ((sortedIds_perm st.Players).nodup_iff.mpr hnd)
      ((sortedIds_perm st.Players).mem_iff.mpr hk) hp
    rw [hl, Nat.zero_add] at hr
    exact Option.some.inj hr

theorem reorderPlayers_nums (st : GameState K) (hnd : (st.Players.map Prod.fst).Nodup) :
    ((reorderPlayers st).Players.map (fun e => e.2.PlayerNum)).Perm
      ((List.range (reorderPlayers st).Players.length).map (fun i : Nat => (i : Int) + 1)) := by
  have hkeys : (reorderPlayers st).Players.map Prod.fst = st.Players.map Prod.fst :=
    keys_renumber (sortSlice (st.Players.map infoOf)) 0 st.Players
  have hlen : (reorderPlayers st).Players.length = (sortSlice (st.Players.map infoOf)).length := by
    have h1 := congrArg List.length hkeys
    rw [List.length_map, List.length_map] at h1
    rw [h1, (sortSlice_perm _).length_eq, List.length_map]
  have e1 : (reorderPlayers st).Players.map (fun e => e.2.PlayerNum) =
      ((reorderPlayers st).Players.map Prod.fst).map
        (fun k => ((rank k (sortSlice (st.Players.map infoOf)) : Nat) : Int) + 1) := by
    rw [List.map_map]
    apply List.map_congr_left
    intro e he
    obtain ⟨p, _, hv⟩ := reorderPlayers_entry st hnd e.1 e.2 he
    show e.2.PlayerNum = _
    rw [hv]
    rfl
  have e2 : (List.range (sortSlice (st.Players.map infoOf)).length).map
        (fun i : Nat => (i : Int) + 1) =
      ((sortSlice (st.Players.map infoOf)).map playerInfo.id).map
        (fun k => ((rank k (sortSlice (st.Players.map infoOf)) : Nat) : Int) + 1) := by
    rw [← map_rank_eq_range _ ((sortedIds_perm st.Players).nodup_iff.mpr hnd), List.map_map]
    rfl
  rw [e1, hkeys, hlen, e2]
  exact ((sortedIds_perm st.Players).symm).map _

theorem reorderPlayers_order (st : GameState K) (hnd : (st.Players.map Prod.fst).Nodup)
    (e₁ e₂ : String × Player K) (h₁ : e₁ ∈ (reorderPlayers st).Players)
    (h₂ : e₂ ∈ (reorderPlayers st).Players) (hlt : e₁.2.JoinedAt < e₂.2.JoinedAt) :
    e₁.2.PlayerNum < e₂.2.PlayerNum := by
  obtain ⟨p₁, hp₁, hv₁⟩ := reorderPlayers_entry st hnd e₁.1 e₁.2 h₁
  obtain ⟨p₂, hp₂, hv₂⟩ := reorderPlayers_entry st hnd e₂.1 e₂.2 h₂
  have m₁ : infoOf (e₁.1, p₁) ∈ sortSlice (st.Players.map infoOf) :=
    (sortSlice_perm _).mem_iff.mpr (List.mem_map.mpr ⟨_, mem_of_lookup _ _ _ hp₁, rfl⟩)
  have m₂ : infoOf (e₂.1, p₂) ∈ sortSlice (st.Players.map infoOf) :=
    (sortSlice_perm _).mem_iff.mpr (List.mem_map.mpr ⟨_, mem_of_lookup _ _ _ hp₂, rfl⟩)
  have hless : infoLess (infoOf (e₁.1, p₁)) (infoOf (e₂.1, p₂)) := by
    show p₁.JoinedAt < p₂.JoinedAt
    rw [hv₁, hv₂] at hlt
    exact hlt
  have hr := rank_lt_of_sorted _ ((sortedIds_perm st.Players).nodup_iff.mpr hnd)
    (sortSlice_sorted _) _ _ m₁ m₂ hless
  rw [hv₁, hv₂]
  show ((rank e₁.1 _ : Nat) : Int) + 1 < ((rank e₂.1 _ : Nat) : Int) + 1
  have : rank e₁.1 (sortSlice (st.Players.map infoOf)) < rank e₂.1 (sortSlice (st.Players.map infoOf)) := hr
  omega

theorem threeJoined_eq :
    threeJoined = { Players := [("A", guest "A" "Player 1" 1 1), ("B", guest "B" "bob" 2 2),
                      ("C", guest "C" "carol" 3 3)], PlayerCount := 3 } := by
  decide

theorem RemovePlayer_present (st : GameState K) (id : String) (p : Player K)
    (hp : lookup id st.Players = some p) :
    (RemovePlayer st id).Players =
      (reorderPlayers { st with Players := delete id st.Players }).Players := by
  unfold RemovePlayer
  rw [hp]

theorem nodup_keys_delete (id : String) (ps : List (String × Player K))
    (hnd : (ps.map Prod.fst).Nodup) : ((delete id ps).map Prod.fst).Nodup := by
  rw [keys_delete]
  exact hnd.filter _

theorem lookup_delete_self (id : String) (ps : List (String × Player K)) :
    lookup id (delete id ps) = none := by
  rw [lookup_eq_none_iff, keys_delete]
  intro h
  have := (List.mem_filter.mp h).2
  simp at this

theorem broadcast_unchanged (marshal marshalMsg : List (String × Player K) → Option String)
    (h : Handler K) (last : List (String × Player K)) (hl : h.lastGameState = some last)
    (he : marshal (GetAllPlayers h.game) = marshal last) :
    broadcastGameState marshal marshalMsg h = (h, []) := by
  unfold broadcastGameState
  simp only
  cases hc : marshal (GetAllPlayers h.game) with
  | none => rfl
  | some c =>
    simp only [hl]
    have : c = bytesOf (marshal last) := by
      rw [← he, hc]
      rfl
    simp [this]

theorem broadcast_baseline (marshal marshalMsg : List (String × Player K) → Option String)
    (h : Handler K) (c : String) (hc : marshal (GetAllPlayers h.game) = some c)
    (hm : marshalMsg (GetAllPlayers h.game) ≠ none) :
    ∃ b, (broadcastGameState marshal marshalMsg h).1.lastGameState = some b ∧
      bytesOf (marshal b) = c := by
  unfold broadcastGameState
  simp only [hc]
  cases hl : h.lastGameState with
  | none =>
    simp only
    cases hd : marshalMsg (GetAllPlayers h.game) with
    | none => exact absurd hd hm
    | some data =>
      refine ⟨GetAllPlayers h.game, rfl, ?_⟩
      rw [hc]
      rfl
  | some last =>
    simp only
    by_cases he : c = bytesOf (marshal last)
    · simp only [he, decide_True, if_true]
      exact ⟨last, hl, rfl⟩
    · simp only [he, decide_False]
      cases hd : marshalMsg (GetAllPlayers h.game) with
      | none => exact absurd hd hm
      | some data =>
        refine ⟨GetAllPlayers h.game, rfl, ?_⟩
        rw [hc]
        rfl

theorem broadcast_skip_bytes (marshal marshalMsg : List (String × Player K) → Option String)
    (h : Handler K) (last : List (String × Player K)) (c : String)
    (hl : h.lastGameState = some last)
    (hc : marshal (GetAllPlayers h.game) = some c) (he : bytesOf (marshal last) = c) :
    broadcastGameState marshal marshalMsg h = (h, []) := by
  unfold broadcastGameState
  simp only [hc, hl, he, decide_True, if_true]

end TableLemmas

/-! ## Lemmas on the physics tick -/

section PhysicsLemmas

variable {K : Type} [LinearOrderedField K]

theorem integrate_eq (p : Player K) :
    integrate p = { p with
      X := clampAxis 785 (p.X + p.Vx), Y := clampAxis 585 (p.Y + p.Vy),
      Vx := bounceAxis 785 (p.X + p.Vx) p.Vx, Vy := bounceAxis 585 (p.Y + p.Vy) p.Vy } := by
  have e1 : (800 : K) - 15 = 785 := by norm_num
  have e2 : (600 : K) - 15 = 585 := by norm_num
  have n1 : ¬ ((15 : K) > 785) := by norm_num
  have n2 : ¬ ((15 : K) > 585) := by norm_num
  unfold integrate boundBottom boundTop boundRight boundLeft applyFriction applyVelocity
    clampAxis bounceAxis
  simp only [e1, e2]
  by_cases hx : p.X + p.Vx < 15 <;> by_cases hx' : p.X + p.Vx > 785 <;>
    by_cases hy : p.Y + p.Vy < 15 <;> by_cases hy' : p.Y + p.Vy > 585 <;>
    simp [hx, hx', hy, hy', n1, n2]

theorem collideStep_skip (ops : MathOps K) (i j : String) (ps : List (String × Player K))
    (h : j ≤ i) : collideStep ops i j ps = ps := by
  unfold collideStep
  rw [if_pos h]

theorem collideStep_hit (ops : MathOps K) (i j : String) (ps : List (String × Player K))
    (a b : Player K) (h : i < j) (ha : lookup i ps = some a) (hb : lookup j ps = some b) :
    collideStep ops i j ps =
      setPlayer j (resolvePair ops a b).2 (setPlayer i (resolvePair ops a b).1 ps) := by
  unfold collideStep
  rw [if_neg (not_le.mpr h), ha, hb]

theorem collideAll_two_lt (ops : MathOps K) (i j : String) (a b : Player K) (h : i < j) :
    collideAll ops [(i, a), (j, b)] =
      [(i, (resolvePair ops a b).1), (j, (resolvePair ops a b).2)] := by
  have hne : i ≠ j := ne_of_lt h
  have hne' : j ≠ i := fun e => hne e.symm
  have e1 : collideStep ops i j [(i, a), (j, b)] =
      [(i, (resolvePair ops a b).1), (j, (resolvePair ops a b).2)] := by
    rw [collideStep_hit ops i j _ a b h (by simp [lookup]) (by simp [lookup, hne])]
    simp [setPlayer, hne, hne']
  simp only [collideAll, collideAllIn, List.map, List.foldl]
  rw [collideStep_skip ops i i _ le_rfl, e1, collideStep_skip ops j i _ (le_of_lt h),
    collideStep_skip ops j j _ le_rfl]

theorem collideAll_two_gt (ops : MathOps K) (i j : String) (a b : Player K) (h : j < i) :
    collideAll ops [(i, a), (j, b)] =
      [(i, (resolvePair ops b a).2), (j, (resolvePair ops b a).1)] := by
  have hne : i ≠ j := ne_of_gt h
  have hne' : j ≠ i := fun e => hne e.symm
  have e1 : collideStep ops j i [(i, a), (j, b)] =
      [(i, (resolvePair ops b a).2), (j, (resolvePair ops b a).1)] := by
    rw [collideStep_hit ops j i _ b a h (by simp [lookup, hne]) (by simp [lookup])]
    simp [setPlayer, hne, hne']
  simp only [collideAll, collideAllIn, List.map, List.foldl]
  rw [collideStep_skip ops i i _ le_rfl, collideStep_skip ops i j _ (le_of_lt h), e1,
    collideStep_skip ops j j _ le_rfl]

theorem Tick_two_lt (ops : MathOps K) (i j : String) (a b : Player K) (n : Int) (h : i < j) :
    (Tick ops { Players := [(i, a), (j, b)], PlayerCount := n }).Players =
      [(i, (resolvePair ops (integrate a) (integrate b)).1),
        (j, (resolvePair ops (integrate a) (integrate b)).2)] := by
  simp only [Tick, List.map]
  exact collideAll_two_lt ops i j _ _ h

theorem Tick_two_gt (ops : MathOps K) (i j : String) (a b : Player K) (n : Int) (h : j < i) :
    (Tick ops { Players := [(i, a), (j, b)], PlayerCount := n }).Players =
      [(i, (resolvePair ops (integrate b) (integrate a)).2),
        (j, (resolvePair ops (integrate b) (integrate a)).1)] := by
  simp only [Tick, List.map]
  exact collideAll_two_gt ops i j _ _ h

/-- The rational square root is exact on squares. -/
theorem pairDist_ratOps (a b : Player ℚ) (d : ℚ) (hd : 0 ≤ d) (h : distSq a b = d * d) :
    pairDist ratOps a b = d := by
  unfold pairDist
  unfold distSq at h
  rw [h]
  show Rat.sqrt (d * d) = d
  rw [Rat.sqrt_eq, abs_of_nonneg hd]

theorem integrate_body (id : String) (x y vx vy : ℚ) :
    integrate (body id x y vx vy) =
      body id (clampAxis 785 (x + vx)) (clampAxis 585 (y + vy))
        (bounceAxis 785 (x + vx) vx) (bounceAxis 585 (y + vy) vy) := by
  rw [integrate_eq]
  rfl

theorem pairDist_symm (ops : MathOps K) (a b : Player K) : pairDist ops b a = pairDist ops a b := by
  unfold pairDist
  congr 1
  ring

theorem distSq_symm (a b : Player K) : distSq b a = distSq a b := by
  unfold distSq
  ring

theorem collides_symm (ops : MathOps K) (a b : Player K) : collides ops b a ↔ collides ops a b := by
  unfold collides
  rw [pairDist_symm]

theorem resolvePair_of_not_collides (ops : MathOps K) (a b : Player K) (h : ¬ collides ops a b) :
    resolvePair ops a b = (a, b) := by
  unfold resolvePair
  simp only [if_neg h]

theorem resolvePair_distSq (ops : MathOps K) (a b : Player K) (h : collides ops a b)
    (hs : pairDist ops a b * pairDist ops a b = distSq a b) :
    distSq (resolvePair ops a b).1 (resolvePair ops a b).2 = 900 := by
  have hd : pairDist ops a b ≠ 0 := ne_of_gt h.2
  unfold resolvePair
  simp only [if_pos h]
  unfold distSq at hs ⊢
  simp only []
  generalize pairDist ops a b = d at hd hs
  have ex : b.X + (b.X - a.X) / d * ((15 * 2 - d) / 2) - (a.X - (b.X - a.X) / d * ((15 * 2 - d) / 2))
      = (b.X - a.X) * 30 / d := by
    field_simp; ring
  have ey : b.Y + (b.Y - a.Y) / d * ((15 * 2 - d) / 2) - (a.Y - (b.Y - a.Y) / d * ((15 * 2 - d) / 2))
      = (b.Y - a.Y) * 30 / d := by
    field_simp; ring
  rw [ex, ey]
  field_simp
  linear_combination (-900 : K) * hs

/-- After the resolution of a pair, with an exact square root, the squared distance is not
below what it was before the tick when that was below `900`. -/
theorem resolvePair_distSq_ge (ops : MathOps K) (a b : Player K) (q : K) (hq : q < 900)
    (hne : distSq a b ≠ 0) (h0 : 0 ≤ pairDist ops a b)
    (hs : pairDist ops a b * pairDist ops a b = distSq a b) :
    q ≤ distSq (resolvePair ops a b).1 (resolvePair ops a b).2 := by
  by_cases h : collides ops a b
  · rw [resolvePair_distSq ops a b h hs]
    exact le_of_lt hq
  · rw [resolvePair_of_not_collides ops a b h]
    show q ≤ distSq a b
    unfold collides at h
    rcases not_and_or.mp h with h1 | h2
    · have h30 : (30 : K) ≤ pairDist ops a b := by
        have : (15 : K) * 2 = 30 := by norm_num
        rw [this] at h1
        exact not_lt.mp h1
      have : (900 : K) ≤ pairDist ops a b * pairDist ops a b := by nlinarith
      rw [hs] at this
      linarith
    · have hz : pairDist ops a b = 0 := le_antisymm (not_lt.mp h2) h0
      rw [hz] at hs
      exact absurd (by simpa using hs.symm) hne
theorem resolvePair_velocity (ops : MathOps K) (a b : Player K) (h : collides ops a b)
    (hs : pairDist ops a b * pairDist ops a b = distSq a b) (s : K) :
    along (resolvePair ops a b).1 (s * ((b.X - a.X) / pairDist ops a b))
        (s * ((b.Y - a.Y) / pairDist ops a b))
      = along b (s * ((b.X - a.X) / pairDist ops a b)) (s * ((b.Y - a.Y) / pairDist ops a b)) ∧
    along (resolvePair ops a b).2 (s * ((b.X - a.X) / pairDist ops a b))
        (s * ((b.Y - a.Y) / pairDist ops a b))
      = along a (s * ((b.X - a.X) / pairDist ops a b)) (s * ((b.Y - a.Y) / pairDist ops a b)) ∧
    across (resolvePair ops a b).1 (s * ((b.X - a.X) / pairDist ops a b))
        (s * ((b.Y - a.Y) / pairDist ops a b))
      = across a (s * ((b.X - a.X) / pairDist ops a b)) (s * ((b.Y - a.Y) / pairDist ops a b)) ∧
    across (resolvePair ops a b).2 (s * ((b.X - a.X) / pairDist ops a b))
        (s * ((b.Y - a.Y) / pairDist ops a b))
      = across b (s * ((b.X - a.X) / pairDist ops a b)) (s * ((b.Y - a.Y) / pairDist ops a b)) := by
  have hd : pairDist ops a b ≠ 0 := ne_of_gt h.2
  unfold resolvePair
  simp only [if_pos h]
  unfold distSq at hs
  unfold along across
  simp only []
  generalize pairDist ops a b = d at hd hs
  have hn : (b.X - a.X) / d * ((b.X - a.X) / d) + (b.Y - a.Y) / d * ((b.Y - a.Y) / d) = 1 := by
    field_simp
    linear_combination (-1 : K) * hs
  generalize (b.X - a.X) / d = nx at hn
  generalize (b.Y - a.Y) / d = ny at hn
  refine ⟨?_, ?_, ?_, ?_⟩
  · linear_combination s * (b.Vx * nx + b.Vy * ny - a.Vx * nx - a.Vy * ny) * hn
  · linear_combination s * (a.Vx * nx + a.Vy * ny - b.Vx * nx - b.Vy * ny) * hn
  · ring
  · ring

theorem str_a_lt_b : "a" < "b" := by
  rw [String.lt_iff_toList_lt]
  decide

theorem str_b_lt_c : "b" < "c" := by
  rw [String.lt_iff_toList_lt]
  decide

theorem collideAll_three (ops : MathOps K) (i j k : String) (a b c : Player K)
    (hij : i < j) (hjk : j < k) :
    collideAll ops [(i, a), (j, b), (k, c)] =
      [(i, (resolvePair ops (resolvePair ops a b).1 c).1),
       (j, (resolvePair ops (resolvePair ops a b).2 (resolvePair ops (resolvePair ops a b).1 c).2).1),
       (k, (resolvePair ops (resolvePair ops a b).2 (resolvePair ops (resolvePair ops a b).1 c).2).2)] := by
  have hik : i < k := lt_trans hij hjk
  have n1 : i ≠ j := ne_of_lt hij
  have n2 : j ≠ k := ne_of_lt hjk
  have n3 : i ≠ k := ne_of_lt hik
  have n1' : j ≠ i := fun e => n1 e.symm
  have n2' : k ≠ j := fun e => n2 e.symm
  have n3' : k ≠ i := fun e => n3 e.symm
  simp only [collideAll, collideAllIn, List.map, List.foldl]
  rw [collideStep_skip ops i i _ le_rfl,
    collideStep_hit ops i j _ a b hij (by simp [lookup]) (by simp [lookup, n1])]
  have e1 : setPlayer j (resolvePair ops a b).2 (setPlayer i (resolvePair ops a b).1
      [(i, a), (j, b), (k, c)]) = [(i, (resolvePair ops a b).1), (j, (resolvePair ops a b).2), (k, c)] := by
    simp [setPlayer, n1, n1', n2', n3']
  rw [e1, collideStep_hit ops i k _ (resolvePair ops a b).1 c hik (by simp [lookup])
    (by simp [lookup, n3, n2])]
  have e2 : setPlayer k (resolvePair ops (resolvePair ops a b).1 c).2
      (setPlayer i (resolvePair ops (resolvePair ops a b).1 c).1
        [(i, (resolvePair ops a b).1), (j, (resolvePair ops a b).2), (k, c)]) =
      [(i, (resolvePair ops (resolvePair ops a b).1 c).1), (j, (resolvePair ops a b).2),
        (k, (resolvePair ops (resolvePair ops a b).1 c).2)] := by
    simp [setPlayer, n1', n2, n3, n3']
  rw [e2, collideStep_skip ops j i _ (le_of_lt hij), collideStep_skip ops j j _ le_rfl,
    collideStep_hit ops j k _ (resolvePair ops a b).2 (resolvePair ops (resolvePair ops a b).1 c).2
      hjk (by simp [lookup, n1]) (by simp [lookup, n3, n2])]
  rw [collideStep_skip ops k i _ (le_of_lt hik), collideStep_skip ops k j _ (le_of_lt hjk),
    collideStep_skip ops k k _ le_rfl]
  simp [setPlayer, n1, n1', n2, n2', n3, n3']

/-- Resolution of a colliding pair with the rational square root, at exact distance `d`. -/
theorem resolvePair_ratOps_hit (a b : Player ℚ) (d : ℚ) (hd : 0 < d) (hd30 : d < 30)
    (h : distSq a b = d * d) :
    resolvePair ratOps a b =
      ({ a with
          X := a.X - (b.X - a.X) / d * ((15 * 2 - d) / 2),
          Y := a.Y - (b.Y - a.Y) / d * ((15 * 2 - d) / 2),
          Vx := a.Vx + (b.Vx * ((b.X - a.X) / d) + b.Vy * ((b.Y - a.Y) / d)
            - (a.Vx * ((b.X - a.X) / d) + a.Vy * ((b.Y - a.Y) / d))) * ((b.X - a.X) / d),
          Vy := a.Vy + (b.Vx * ((b.X - a.X) / d) + b.Vy * ((b.Y - a.Y) / d)
            - (a.Vx * ((b.X - a.X) / d) + a.Vy * ((b.Y - a.Y) / d))) * ((b.Y - a.Y) / d) },
        { b with
          X := b.X + (b.X - a.X) / d * ((15 * 2 - d) / 2),
          Y := b.Y + (b.Y - a.Y) / d * ((15 * 2 - d) / 2),
          Vx := b.Vx + (a.Vx * ((b.X - a.X) / d) + a.Vy * ((b.Y - a.Y) / d)
            - (b.Vx * ((b.X - a.X) / d) + b.Vy * ((b.Y - a.Y) / d))) * ((b.X - a.X) / d),
          Vy := b.Vy + (a.Vx * ((b.X - a.X) / d) + a.Vy * ((b.Y - a.Y) / d)
            - (b.Vx * ((b.X - a.X) / d) + b.Vy * ((b.Y - a.Y) / d))) * ((b.Y - a.Y) / d) }) := by
  have hp : pairDist ratOps a b = d := pairDist_ratOps a b d (le_of_lt hd) h
  have hc : collides ratOps a b := by
    unfold collides
    rw [hp]
    exact ⟨by linarith, hd⟩
  unfold resolvePair
  simp only [if_pos hc, hp]

/-- No resolution with the rational square root at exact distance `d` outside `(0, 30)`. -/
theorem resolvePair_ratOps_miss (a b : Player ℚ) (d : ℚ) (hd : 0 ≤ d) (hout : d = 0 ∨ 30 ≤ d)
    (h : distSq a b = d * d) : resolvePair ratOps a b = (a, b) := by
  have hp : pairDist ratOps a b = d := pairDist_ratOps a b d hd h
  apply resolvePair_of_not_collides
  unfold collides
  rw [hp]
  rcases hout with h0 | h30
  · rw [h0]; norm_num
  · intro hc
    linarith [hc.1]

theorem integrate_rest (a : Player K) (h : inArena a) (hx : a.Vx = 0) (hy : a.Vy = 0) :
    integrate a = a := by
  obtain ⟨h1, h2, h3, h4⟩ := h
  rw [integrate_eq]
  cases a
  simp only at hx hy h1 h2 h3 h4
  subst hx hy
  simp [clampAxis, bounceAxis, not_lt.mpr h1, not_lt.mpr h2, not_lt.mpr h3, not_lt.mpr h4]

theorem resolvePair_coincident (ops : MathOps K) (h0 : ops.sqrt 0 = 0) (a b : Player K)
    (hx : a.X = b.X) (hy : a.Y = b.Y) : resolvePair ops a b = (a, b) := by
  apply resolvePair_of_not_collides
  unfold collides pairDist
  rw [hx, hy]
  simp [h0]

theorem ratOps_sqrt_zero : ratOps.sqrt 0 = 0 := by
  show Rat.sqrt 0 = 0
  have h : (0 : ℚ) = 0 * 0 := by norm_num
  rw [h, Rat.sqrt_eq]
  simp

theorem randomPositionLoop_bounds (ps : List (String × Player K)) (draws : Nat → Nat × Nat)
    (n attempt : Nat) :
    15 ≤ (randomPositionLoop ps draws n attempt).1 ∧
    (randomPositionLoop ps draws n attempt).1 ≤ 785 ∧
    15 ≤ (randomPositionLoop ps draws n attempt).2 ∧
    (randomPositionLoop ps draws n attempt).2 ≤ 585 := by
  induction n generalizing attempt with
  | zero =>
    unfold randomPositionLoop
    norm_num
  | succ n ih =>
    unfold randomPositionLoop
    simp only
    by_cases hb : ((draws attempt).1 : K) < 15 ∨ ((draws attempt).1 : K) > 785 ∨
        ((draws attempt).2 : K) < 15 ∨ ((draws attempt).2 : K) > 585
    · rw [if_pos hb]
      exact ih (attempt + 1)
    · rw [if_neg hb]
      by_cases hc : spawnCollision ps ((draws attempt).1 : K) ((draws attempt).2 : K) = true
      · rw [if_pos hc]
        exact ih (attempt + 1)
      · rw [if_neg hc]
        simp only [not_or, not_lt] at hb
        exact hb

theorem randomPositionLoop_fallback (ps : List (String × Player K)) (draws : Nat → Nat × Nat)
    (n attempt : Nat) (h : ∀ k, attempt ≤ k → k < attempt + n → trialRejected ps draws k) :
    randomPositionLoop ps draws n attempt = (400, 300) := by
  induction n generalizing attempt with
  | zero => rfl
  | succ n ih =>
    unfold randomPositionLoop
    simp only
    have hk := h attempt le_rfl (by omega)
    have hrest := ih (attempt + 1) (fun k h1 h2 => h k (by omega) (by omega))
    by_cases hb : ((draws attempt).1 : K) < 15 ∨ ((draws attempt).1 : K) > 785 ∨
        ((draws attempt).2 : K) < 15 ∨ ((draws attempt).2 : K) > 585
    · rw [if_pos hb]
      exact hrest
    · rw [if_neg hb]
      rcases hk with hk | hk
      · exact absurd hk hb
      · rw [if_pos hk]
        exact hrest

theorem bounceScan_bounds (ops : MathOps K) (playerID : String) (x y : K)
    (ps : List (String × Player K)) (h : (bounceScan ops playerID x y ps).2.2 = true) :
    15 ≤ (bounceScan ops playerID x y ps).1 ∧ (bounceScan ops playerID x y ps).1 ≤ 785 ∧
    15 ≤ (bounceScan ops playerID x y ps).2.1 ∧ (bounceScan ops playerID x y ps).2.1 ≤ 585 := by
  induction ps with
  | nil => simp [bounceScan] at h
  | cons e rest ih =>
    obtain ⟨k, v⟩ := e
    unfold bounceScan at h ⊢
    by_cases hk : k = playerID
    · simp only [hk, if_true] at h ⊢
      exact ih h
    · simp only [hk, if_false] at h ⊢
      by_cases hd : (x - v.X) * (x - v.X) + (y - v.Y) * (y - v.Y) < 15 * 2 * (15 * 2)
      · have c1 : ∀ t : K, 15 ≤ (if t < 15 then 15 else if t > 785 then 785 else t) ∧
            (if t < 15 then 15 else if t > 785 then 785 else t) ≤ 785 := by
          intro t
          split_ifs with h1 h2
          · norm_num
          · norm_num
          · exact ⟨not_lt.mp h1, not_lt.mp h2⟩
        have c2 : ∀ t : K, 15 ≤ (if t < 15 then 15 else if t > 585 then 585 else t) ∧
            (if t < 15 then 15 else if t > 585 then 585 else t) ≤ 585 := by
          intro t
          split_ifs with h1 h2
          · norm_num
          · norm_num
          · exact ⟨not_lt.mp h1, not_lt.mp h2⟩
        rw [if_pos hd]
        exact ⟨(c1 _).1, (c1 _).2, (c2 _).1, (c2 _).2⟩
      · rw [if_neg hd] at h ⊢
        exact ih h

end PhysicsLemmas

/-! ## Claims on the physics tick -/

section PhysicsClaims

variable {K : Type} [LinearOrderedField K]

/-- C1, evaluated at a failing input: two participants inside the arena, at rest, ten units
apart next to the left wall.  After one `Tick` the collision step has pushed `a` to `X = 5`,
outside the arena: the wall handling runs before the collision step and is not repeated. -/
theorem C1_tick_pushes_through_wall :
    inArena (body "a" 15 300 0 0) ∧ inArena (body "b" 25 300 0 0) ∧
    (Tick ratOps { Players := [("a", body "a" 15 300 0 0), ("b", body "b" 25 300 0 0)],
                   PlayerCount := 2 }).Players
      = [("a", body "a" 5 300 0 0), ("b", body "b" 35 300 0 0)] ∧
    ¬ inArena (body "a" 5 300 0 0) := by
  have ia : integrate (body "a" 15 300 0 0) = body "a" 15 300 0 0 := by
    rw [integrate_body]; norm_num [clampAxis, bounceAxis]
  have ib : integrate (body "b" 25 300 0 0) = body "b" 25 300 0 0 := by
    rw [integrate_body]; norm_num [clampAxis, bounceAxis]
  refine ⟨by norm_num [inArena, body], by norm_num [inArena, body], ?_, by norm_num [inArena, body]⟩
  rw [Tick_two_lt _ _ _ _ _ _ str_a_lt_b, ia, ib,
    resolvePair_ratOps_hit _ _ 10 (by norm_num) (by norm_num) (by norm_num [distSq, body])]
  norm_num [body]

/-- C6 fails as stated, at two inputs.  (1) Two participants ten units apart that move onto
the same point: the pair is skipped and ends at distance `0`.  (2) Three participants on a
line: the pair `(a, b)` starts at distance `20` and, after `(b, c)` is resolved, ends at
distance `17.5`. -/
theorem C6_separation_counterexample :
    (distSq (body "a" 100 100 5 0) (body "b" 110 100 (-5) 0) < 900 ∧
      (Tick ratOps { Players := [("a", body "a" 100 100 5 0), ("b", body "b" 110 100 (-5) 0)],
                     PlayerCount := 2 }).Players
        = [("a", body "a" 105 100 (49 / 10) 0), ("b", body "b" 105 100 (-(49 / 10)) 0)] ∧
      distSq (body "a" 105 100 (49 / 10) 0) (body "b" 105 100 (-(49 / 10)) 0)
        < distSq (body "a" 100 100 5 0) (body "b" 110 100 (-5) 0)) ∧
    (distSq (body "a" 100 300 0 0) (body "b" 120 300 0 0) < 900 ∧
      (Tick ratOps { Players := [("a", body "a" 100 300 0 0), ("b", body "b" 120 300 0 0),
                       ("c", body "c" 130 300 0 0)], PlayerCount := 3 }).Players
        = [("a", body "a" 95 300 0 0), ("b", body "b" (225 / 2) 300 0 0),
            ("c", body "c" (285 / 2) 300 0 0)] ∧
      distSq (body "a" 95 300 0 0) (body "b" (225 / 2) 300 0 0)
        < distSq (body "a" 100 300 0 0) (body "b" 120 300 0 0)) := by
  have ia : integrate (body "a" 100 100 5 0) = body "a" 105 100 (49 / 10) 0 := by
    rw [integrate_body]; norm_num [clampAxis, bounceAxis]
  have ib : integrate (body "b" 110 100 (-5) 0) = body "b" 105 100 (-(49 / 10)) 0 := by
    rw [integrate_body]; norm_num [clampAxis, bounceAxis]
  have ja : integrate (body "a" 100 300 0 0) = body "a" 100 300 0 0 := by
    rw [integrate_body]; norm_num [clampAxis, bounceAxis]
  have jb : integrate (body "b" 120 300 0 0) = body "b" 120 300 0 0 := by
    rw [integrate_body]; norm_num [clampAxis, bounceAxis]
  have jc : integrate (body "c" 130 300 0 0) = body "c" 130 300 0 0 := by
    rw [integrate_body]; norm_num [clampAxis, bounceAxis]
  have r1 : resolvePair ratOps (body "a" 100 300 0 0) (body "b" 120 300 0 0)
      = (body "a" 95 300 0 0, body "b" 125 300 0 0) := by
    rw [resolvePair_ratOps_hit _ _ 20 (by norm_num) (by norm_num) (by norm_num [distSq, body])]
    norm_num [body]
  have r2 : resolvePair ratOps (body "a" 95 300 0 0) (body "c" 130 300 0 0)
      = (body "a" 95 300 0 0, body "c" 130 300 0 0) :=
    resolvePair_ratOps_miss _ _ 35 (by norm_num) (Or.inr (by norm_num)) (by norm_num [distSq, body])
  have r3 : resolvePair ratOps (body "b" 125 300 0 0) (body "c" 130 300 0 0)
      = (body "b" (225 / 2) 300 0 0, body "c" (285 / 2) 300 0 0) := by
    rw [resolvePair_ratOps_hit _ _ 5 (by norm_num) (by norm_num) (by norm_num [distSq, body])]
    norm_num [body]
  refine ⟨⟨by norm_num [distSq, body], ?_, by norm_num [distSq, body]⟩,
    ⟨by norm_num [distSq, body], ?_, by norm_num [distSq, body]⟩⟩
  · rw [Tick_two_lt _ _ _ _ _ _ str_a_lt_b, ia, ib,
      resolvePair_ratOps_miss _ _ 0 (by norm_num) (Or.inl rfl) (by norm_num [distSq, body])]
  · simp only [Tick, List.map]
    rw [ja, jb, jc, collideAll_three _ _ _ _ _ _ _ str_a_lt_b str_b_lt_c, r1]
    simp only [r2, r3]

/-- C6 as amended: in a state with exactly two participants whose squared distance before
`Tick` is below `900`, whose centres do not coincide after integration and wall handling, and
on whose squared distance there `math.Sqrt` is exact, the squared distance after `Tick` is at
least the one before. -/
theorem C6_two_body_separation (ops : MathOps K) (i j : String) (a b : Player K) (n : Int)
    (hij : i ≠ j) (hpre : distSq a b < 900)
    (hne : distSq (integrate a) (integrate b) ≠ 0)
    (h0 : 0 ≤ pairDist ops (integrate a) (integrate b))
    (hs : pairDist ops (integrate a) (integrate b) * pairDist ops (integrate a) (integrate b)
      = distSq (integrate a) (integrate b)) :
    ∃ a' b', lookup i (Tick ops { Players := [(i, a), (j, b)], PlayerCount := n }).Players = some a'
      ∧ lookup j (Tick ops { Players := [(i, a), (j, b)], PlayerCount := n }).Players = some b'
      ∧ distSq a b ≤ distSq a' b' := by
  rcases lt_or_gt_of_ne hij with h | h
  · refine ⟨(resolvePair ops (integrate a) (integrate b)).1,
      (resolvePair ops (integrate a) (integrate b)).2, ?_, ?_,
      resolvePair_distSq_ge ops _ _ _ hpre hne h0 hs⟩
    · rw [Tick_two_lt ops i j a b n h]; simp [lookup]
    · rw [Tick_two_lt ops i j a b n h]; simp [lookup, hij]
  · have hs' : pairDist ops (integrate b) (integrate a) * pairDist ops (integrate b) (integrate a)
        = distSq (integrate b) (integrate a) := by
      rw [pairDist_symm, distSq_symm]; exact hs
    have hne' : distSq (integrate b) (integrate a) ≠ 0 := by rw [distSq_symm]; exact hne
    have h0' : 0 ≤ pairDist ops (integrate b) (integrate a) := by rw [pairDist_symm]; exact h0
    refine ⟨(resolvePair ops (integrate b) (integrate a)).2,
      (resolvePair ops (integrate b) (integrate a)).1, ?_, ?_, ?_⟩
    · rw [Tick_two_gt ops i j a b n h]; simp [lookup]
    · rw [Tick_two_gt ops i j a b n h]; simp [lookup, hij]
    · rw [distSq_symm (resolvePair ops (integrate b) (integrate a)).1]
      exact resolvePair_distSq_ge ops _ _ _ hpre hne' h0' hs'

/-- C6 (amended) at a concrete input: two participants at rest, twenty units apart. -/
theorem C6_two_body_separation_witness :
    ∃ a' b', lookup "a" (Tick ratOps { Players := [("a", body "a" 100 300 0 0),
          ("b", body "b" 120 300 0 0)], PlayerCount := 2 }).Players = some a'
      ∧ lookup "b" (Tick ratOps { Players := [("a", body "a" 100 300 0 0),
          ("b", body "b" 120 300 0 0)], PlayerCount := 2 }).Players = some b'
      ∧ distSq (body "a" 100 300 0 0) (body "b" 120 300 0 0) ≤ distSq a' b' := by
  have ja : integrate (body "a" 100 300 0 0) = body "a" 100 300 0 0 := by
    rw [integrate_body]; norm_num [clampAxis, bounceAxis]
  have jb : integrate (body "b" 120 300 0 0) = body "b" 120 300 0 0 := by
    rw [integrate_body]; norm_num [clampAxis, bounceAxis]
  have hd : pairDist ratOps (body "a" 100 300 0 0) (body "b" 120 300 0 0) = 20 :=
    pairDist_ratOps _ _ 20 (by norm_num) (by norm_num [distSq, body])
  exact C6_two_body_separation ratOps "a" "b" _ _ 2 (by decide) (by norm_num [distSq, body])
    (by rw [ja, jb]; norm_num [distSq, body]) (by rw [ja, jb, hd]; norm_num)
    (by rw [ja, jb, hd]; norm_num [distSq, body])

/-- C8: in a state with exactly two participants whose distance `d` after integration and
wall handling satisfies `0 < d < 30` (with `math.Sqrt` exact there), after `Tick` the velocity
component of each along the normal `n = (B - A) / d` is the one the other had after friction
and wall reflection, and the components perpendicular to `n` are unchanged. -/
theorem C8_normal_component_exchange (ops : MathOps K) (i j : String) (a b : Player K) (n : Int)
    (hij : i ≠ j)
    (hpos : 0 < pairDist ops (integrate a) (integrate b))
    (hlt : pairDist ops (integrate a) (integrate b) < 30)
    (hs : pairDist ops (integrate a) (integrate b) * pairDist ops (integrate a) (integrate b)
      = distSq (integrate a) (integrate b)) :
    ∃ a' b', lookup i (Tick ops { Players := [(i, a), (j, b)], PlayerCount := n }).Players = some a'
      ∧ lookup j (Tick ops { Players := [(i, a), (j, b)], PlayerCount := n }).Players = some b'
      ∧ along a' (normalX ops (integrate a) (integrate b))
          (normalY ops (integrate a) (integrate b))
        = along (integrate b) (normalX ops (integrate a) (integrate b))
          (normalY ops (integrate a) (integrate b))
      ∧ along b' (normalX ops (integrate a) (integrate b))
          (normalY ops (integrate a) (integrate b))
        = along (integrate a) (normalX ops (integrate a) (integrate b))
          (normalY ops (integrate a) (integrate b))
      ∧ across a' (normalX ops (integrate a) (integrate b))
          (normalY ops (integrate a) (integrate b))
        = across (integrate a) (normalX ops (integrate a) (integrate b))
          (normalY ops (integrate a) (integrate b))
      ∧ across b' (normalX ops (integrate a) (integrate b))
          (normalY ops (integrate a) (integrate b))
        = across (integrate b) (normalX ops (integrate a) (integrate b))
          (normalY ops (integrate a) (integrate b)) := by
  unfold normalX normalY
  have h30 : (15 : K) * 2 = 30 := by norm_num
  have hc : collides ops (integrate a) (integrate b) := ⟨by rw [h30]; exact hlt, hpos⟩
  rcases lt_or_gt_of_ne hij with h | h
  · have hv := resolvePair_velocity ops (integrate a) (integrate b) hc hs 1
    simp only [one_mul] at hv
    refine ⟨(resolvePair ops (integrate a) (integrate b)).1,
      (resolvePair ops (integrate a) (integrate b)).2, ?_, ?_, hv.1, hv.2.1, hv.2.2.1, hv.2.2.2⟩
    · rw [Tick_two_lt ops i j a b n h]; simp [lookup]
    · rw [Tick_two_lt ops i j a b n h]; simp [lookup, hij]
  · have hc' : collides ops (integrate b) (integrate a) := (collides_symm ops _ _).mpr hc
    have hs' : pairDist ops (integrate b) (integrate a) * pairDist ops (integrate b) (integrate a)
        = distSq (integrate b) (integrate a) := by
      rw [pairDist_symm, distSq_symm]; exact hs
    have hv := resolvePair_velocity ops (integrate b) (integrate a) hc' hs' (-1)
    rw [pairDist_symm ops (integrate a) (integrate b)] at hv
    have ex : (-1 : K) * (((integrate a).X - (integrate b).X) / pairDist ops (integrate a) (integrate b))
        = ((integrate b).X - (integrate a).X) / pairDist ops (integrate a) (integrate b) := by ring
    have ey : (-1 : K) * (((integrate a).Y - (integrate b).Y) / pairDist ops (integrate a) (integrate b))
        = ((integrate b).Y - (integrate a).Y) / pairDist ops (integrate a) (integrate b) := by ring
    rw [ex, ey] at hv
    refine ⟨(resolvePair ops (integrate b) (integrate a)).2,
      (resolvePair ops (integrate b) (integrate a)).1, ?_, ?_, hv.2.1, hv.1, hv.2.2.2, hv.2.2.1⟩
    · rw [Tick_two_gt ops i j a b n h]; simp [lookup]
    · rw [Tick_two_gt ops i j a b n h]; simp [lookup, hij]


/-- C8 at a concrete input: head-on velocities `(5, 0)` and `(-5, 0)` on the x-axis; after
friction they are `4.9` and `-4.9`, and `Tick` ends with the x-components swapped. -/
theorem C8_normal_component_exchange_witness :
    (Tick ratOps { Players := [("a", body "a" 100 300 5 0), ("b", body "b" 130 300 (-5) 0)],
                   PlayerCount := 2 }).Players
      = [("a", body "a" 100 300 (-(49 / 10)) 0), ("b", body "b" 130 300 (49 / 10) 0)] ∧
    ∃ a' b', lookup "a" (Tick ratOps { Players := [("a", body "a" 100 300 5 0),
          ("b", body "b" 130 300 (-5) 0)], PlayerCount := 2 }).Players = some a'
      ∧ lookup "b" (Tick ratOps { Players := [("a", body "a" 100 300 5 0),
          ("b", body "b" 130 300 (-5) 0)], PlayerCount := 2 }).Players = some b'
      ∧ along a' (normalX ratOps (integrate (body "a" 100 300 5 0))
            (integrate (body "b" 130 300 (-5) 0)))
          (normalY ratOps (integrate (body "a" 100 300 5 0)) (integrate (body "b" 130 300 (-5) 0)))
        = along (integrate (body "b" 130 300 (-5) 0))
          (normalX ratOps (integrate (body "a" 100 300 5 0)) (integrate (body "b" 130 300 (-5) 0)))
          (normalY ratOps (integrate (body "a" 100 300 5 0)) (integrate (body "b" 130 300 (-5) 0)))
      ∧ along b' (normalX ratOps (integrate (body "a" 100 300 5 0))
            (integrate (body "b" 130 300 (-5) 0)))
          (normalY ratOps (integrate (body "a" 100 300 5 0)) (integrate (body "b" 130 300 (-5) 0)))
        = along (integrate (body "a" 100 300 5 0))
          (normalX ratOps (integrate (body "a" 100 300 5 0)) (integrate (body "b" 130 300 (-5) 0)))
          (normalY ratOps (integrate (body "a" 100 300 5 0)) (integrate (body "b" 130 300 (-5) 0)))
      ∧ across a' (normalX ratOps (integrate (body "a" 100 300 5 0))
            (integrate (body "b" 130 300 (-5) 0)))
          (normalY ratOps (integrate (body "a" 100 300 5 0)) (integrate (body "b" 130 300 (-5) 0)))
        = across (integrate (body "a" 100 300 5 0))
          (normalX ratOps (integrate (body "a" 100 300 5 0)) (integrate (body "b" 130 300 (-5) 0)))
          (normalY ratOps (integrate (body "a" 100 300 5 0)) (integrate (body "b" 130 300 (-5) 0)))
      ∧ across b' (normalX ratOps (integrate (body "a" 100 300 5 0))
            (integrate (body "b" 130 300 (-5) 0)))
          (normalY ratOps (integrate (body "a" 100 300 5 0)) (integrate (body "b" 130 300 (-5) 0)))
        = across (integrate (body "b" 130 300 (-5) 0))
          (normalX ratOps (integrate (body "a" 100 300 5 0)) (integrate (body "b" 130 300 (-5) 0)))
          (normalY ratOps (integrate (body "a" 100 300 5 0))
            (integrate (body "b" 130 300 (-5) 0))) := by
  have ia : integrate (body "a" 100 300 5 0) = body "a" 105 300 (49 / 10) 0 := by
    rw [integrate_body]; norm_num [clampAxis, bounceAxis]
  have ib : integrate (body "b" 130 300 (-5) 0) = body "b" 125 300 (-(49 / 10)) 0 := by
    rw [integrate_body]; norm_num [clampAxis, bounceAxis]
  have hd : pairDist ratOps (body "a" 105 300 (49 / 10) 0) (body "b" 125 300 (-(49 / 10)) 0)
      = 20 :=
    pairDist_ratOps _ _ 20 (by norm_num) (by norm_num [distSq, body])
  refine ⟨?_, C8_normal_component_exchange ratOps "a" "b" _ _ 2 (by decide)
    (by rw [ia, ib, hd]; norm_num) (by rw [ia, ib, hd]; norm_num)
    (by rw [ia, ib, hd]; norm_num [distSq, body])⟩
  rw [Tick_two_lt _ _ _ _ _ _ str_a_lt_b, ia, ib,
    resolvePair_ratOps_hit _ _ 20 (by norm_num) (by norm_num) (by norm_num [distSq, body])]
  norm_num [body]

end PhysicsClaims

/-! ## Claims on the position setter and the spawn search -/

section PlacementClaims

variable {K : Type} [LinearOrderedField K]

/-- C2: when participant `id` is present and inside the arena, after
`UpdatePlayerPosition(id, x, y)` it is still present and inside the arena, whether the
proposal was rejected, applied as given or replaced by a bounce position. -/
theorem C2_update_position_keeps_arena (ops : MathOps K) (st : GameState K) (id : String)
    (x y : K) (now : Time) (p : Player K) (hp : lookup id st.Players = some p)
    (hin : inArena p) :
    ∃ q, lookup id (UpdatePlayerPosition ops st id x y now).Players = some q ∧ inArena q := by
  unfold UpdatePlayerPosition
  rw [hp]
  simp only
  by_cases hb : x < 15 ∨ x > 785 ∨ y < 15 ∨ y > 585
  · rw [if_pos hb]
    exact ⟨p, hp, hin⟩
  · rw [if_neg hb]
    simp only [not_or, not_lt] at hb
    obtain ⟨hx1, hx2, hy1, hy2⟩ := hb
    refine ⟨_, lookup_setPlayer_self id _ st.Players p hp, ?_⟩
    by_cases hc : (bounceScan ops id x y st.Players).2.2 = true
    · simp only [hc, if_true]
      exact bounceScan_bounds ops id x y st.Players hc
    · simp only [hc]
      exact ⟨hx1, hx2, hy1, hy2⟩


/-- C2 at a concrete input: the proposal overlaps `b`, the bounce position `(90, 300)` is
stored. -/
theorem C2_update_position_keeps_arena_witness :
    UpdatePlayerPosition ratOps
        { Players := [("a", body "a" 100 300 0 0), ("b", body "b" 120 300 0 0)],
          PlayerCount := 2 } "a" 110 300 7
      = { Players := [("a", { body "a" 90 300 0 0 with LastSeen := 7 }),
            ("b", body "b" 120 300 0 0)], PlayerCount := 2 } ∧
    ∃ q, lookup "a" (UpdatePlayerPosition ratOps
        { Players := [("a", body "a" 100 300 0 0), ("b", body "b" 120 300 0 0)],
          PlayerCount := 2 } "a" 110 300 7).Players = some q ∧ inArena q :=
  ⟨by
      have hba : ¬ ("b" = "a") := by decide
      norm_num [UpdatePlayerPosition, lookup, bounceScan, setPlayer, body, ratOps, quarterAtan2,
        quarterCos, quarterSin, hba],
    C2_update_position_keeps_arena ratOps
      { Players := [("a", body "a" 100 300 0 0), ("b", body "b" 120 300 0 0)],
        PlayerCount := 2 } "a" 110 300 7 (body "a" 100 300 0 0) (by simp [lookup])
      (by norm_num [inArena, body])⟩

/-- C10: for every state and every outcome of the random draws, `GetRandomPosition` returns
a point of the arena inset by the body radius; when all hundred trials are rejected it returns
the centre `(400, 300)`. -/
theorem C10_spawn_inside_arena (st : GameState K) (draws : Nat → Nat × Nat) :
    (15 ≤ (GetRandomPosition st draws).1 ∧ (GetRandomPosition st draws).1 ≤ 785 ∧
      15 ≤ (GetRandomPosition st draws).2 ∧ (GetRandomPosition st draws).2 ≤ 585) ∧
    ((∀ k, k < 100 → trialRejected st.Players draws k) →
      GetRandomPosition st draws = (400, 300)) := by
  refine ⟨randomPositionLoop_bounds st.Players draws 100 0, fun h => ?_⟩
  exact randomPositionLoop_fallback st.Players draws 100 0 (fun k _ h2 => h k (by omega))

end PlacementClaims

/-! ## Claims on the lifecycle and the broadcast -/

section LifecycleClaims

variable {K : Type}

/-- C3, evaluated at a failing input: `AddPlayer` twice with the same identifier from the
empty store (a second login on one connection).  The table then holds one participant, whose
`PlayerNum` is `2`, and `PlayerCount` is `2`: the ordinals are `{2}`, not `{1}`. -/
theorem C3_repeated_login_breaks_contiguity :
    AddPlayer (AddPlayer (NewGameState ℚ) (guest "A" "" 0 0) 1 1) (guest "A" "" 1 1) 2 2
      = { Players := [("A", guest "A" "Player 2" 2 2)], PlayerCount := 2 } ∧
    (AddPlayer (AddPlayer (NewGameState ℚ) (guest "A" "" 0 0) 1 1)
      (guest "A" "" 1 1) 2 2).Players.map (fun e => e.2.PlayerNum) = [2] ∧
    (AddPlayer (AddPlayer (NewGameState ℚ) (guest "A" "" 0 0) 1 1)
      (guest "A" "" 1 1) 2 2).Players.length = 1 := by
  decide

/-- C4: for a table with distinct keys and an identifier `id` present in it, after
`RemovePlayer(id)` the identifier is absent, the other participants remain with their join
times, their `PlayerNum` values are a permutation of `1..N` (`N` the number remaining), and a
participant that joined strictly earlier than another has the smaller `PlayerNum`. -/
theorem C4_remove_renumbers_by_join_time (st : GameState K) (id : String) (p₀ : Player K)
    (hnd : (st.Players.map Prod.fst).Nodup) (hp : lookup id st.Players = some p₀) :
    lookup id (RemovePlayer st id).Players = none ∧
    (RemovePlayer st id).Players.map Prod.fst
      = (st.Players.map Prod.fst).filter (fun k => decide (k ≠ id)) ∧
    (∀ k v, (k, v) ∈ (RemovePlayer st id).Players →
      ∃ p, lookup k st.Players = some p ∧ v.JoinedAt = p.JoinedAt) ∧
    ((RemovePlayer st id).Players.map (fun e => e.2.PlayerNum)).Perm
      ((List.range (RemovePlayer st id).Players.length).map (fun i : Nat => (i : Int) + 1)) ∧
    (∀ e₁ e₂, e₁ ∈ (RemovePlayer st id).Players → e₂ ∈ (RemovePlayer st id).Players →
      e₁.2.JoinedAt < e₂.2.JoinedAt → e₁.2.PlayerNum < e₂.2.PlayerNum) := by
  have hnd' : (({ st with Players := delete id st.Players } : GameState K).Players.map
      Prod.fst).Nodup := nodup_keys_delete id st.Players hnd
  have hkeys : (RemovePlayer st id).Players.map Prod.fst = (delete id st.Players).map Prod.fst := by
    rw [RemovePlayer_present st id p₀ hp, reorderPlayers_players]
    exact keys_renumber _ 0 _
  rw [RemovePlayer_present st id p₀ hp] at hkeys ⊢
  refine ⟨?_, ?_, ?_, reorderPlayers_nums _ hnd', reorderPlayers_order _ hnd'⟩
  · rw [lookup_eq_none_iff, hkeys, ← lookup_eq_none_iff]
    exact lookup_delete_self id st.Players
  · rw [hkeys, keys_delete]
  · intro k v hkv
    obtain ⟨p, hl, hv⟩ := reorderPlayers_entry _ hnd' k v hkv
    have hk : k ≠ id := by
      intro e
      rw [e] at hl
      have := lookup_delete_self id st.Players
      change lookup id (delete id st.Players) = some p at hl
      rw [this] at hl
      exact Option.noConfusion hl
    refine ⟨p, ?_, by rw [hv]; rfl⟩
    rw [← lookup_delete_other id k st.Players hk]
    exact hl

/-- C4 at a concrete input: A, B, C joined at the instants 1, 2, 3; removing B leaves A with
`PlayerNum = 1` and C with `PlayerNum = 2`. -/
theorem C4_remove_renumbers_by_join_time_witness :
    RemovePlayer threeJoined "B"
      = { Players := [("A", guest "A" "Player 1" 1 1), ("C", guest "C" "Player 2" 2 3)],
          PlayerCount := 2 } ∧
    (lookup "B" (RemovePlayer threeJoined "B").Players = none ∧
    (RemovePlayer threeJoined "B").Players.map Prod.fst
      = (threeJoined.Players.map Prod.fst).filter (fun k => decide (k ≠ "B")) ∧
    (∀ k v, (k, v) ∈ (RemovePlayer threeJoined "B").Players →
      ∃ p, lookup k threeJoined.Players = some p ∧ v.JoinedAt = p.JoinedAt) ∧
    ((RemovePlayer threeJoined "B").Players.map (fun e => e.2.PlayerNum)).Perm
      ((List.range (RemovePlayer threeJoined "B").Players.length).map
        (fun i : Nat => (i : Int) + 1)) ∧
    (∀ e₁ e₂, e₁ ∈ (RemovePlayer threeJoined "B").Players →
      e₂ ∈ (RemovePlayer threeJoined "B").Players →
      e₁.2.JoinedAt < e₂.2.JoinedAt → e₁.2.PlayerNum < e₂.2.PlayerNum)) :=
  ⟨by decide,
    C4_remove_renumbers_by_join_time threeJoined "B" (guest "B" "bob" 2 2) (by decide)
      (by decide)⟩

/-- C5: for a table with distinct keys and an identifier `id` present in it, after
`RemovePlayer(id)` the name of every remaining participant is `"Player "` followed by the
decimal form of its new `PlayerNum`, whatever its name was before. -/
theorem C5_remove_resets_names (st : GameState K) (id : String) (p₀ : Player K)
    (hnd : (st.Players.map Prod.fst).Nodup) (hp : lookup id st.Players = some p₀) :
    ∀ k v, (k, v) ∈ (RemovePlayer st id).Players → v.Name = sprintfPlayer v.PlayerNum := by
  have hnd' : (({ st with Players := delete id st.Players } : GameState K).Players.map
      Prod.fst).Nodup := nodup_keys_delete id st.Players hnd
  intro k v hkv
  rw [RemovePlayer_present st id p₀ hp] at hkv
  obtain ⟨p, _, hv⟩ := reorderPlayers_entry _ hnd' k v hkv
  rw [hv]
  rfl

/-- C5 at a concrete input: C logged in with the name `carol` and is `Player 2` after B
left. -/
theorem C5_remove_resets_names_witness :
    lookup "C" threeJoined.Players = some (guest "C" "carol" 3 3) ∧
    lookup "C" (RemovePlayer threeJoined "B").Players = some (guest "C" "Player 2" 2 3) ∧
    (∀ k v, (k, v) ∈ (RemovePlayer threeJoined "B").Players →
      v.Name = sprintfPlayer v.PlayerNum) :=
  ⟨by decide, by decide,
    C5_remove_resets_names threeJoined "B" (guest "B" "bob" 2 2) (by decide) (by decide)⟩

/-- C9: (1) with a non-nil baseline whose serialized form equals that of the current
snapshot, `broadcastGameState` writes to no connection and leaves the handler unchanged;
(2) after a call in which serialization does not fail, the baseline serializes to the bytes of
that call's snapshot; (3) so a next cycle whose snapshot serializes to the same bytes writes to
no connection. -/
theorem C9_broadcast_suppression (marshal marshalMsg : List (String × Player K) → Option String) :
    (∀ (h : Handler K) (last : List (String × Player K)), h.lastGameState = some last →
      marshal (GetAllPlayers h.game) = marshal last →
      broadcastGameState marshal marshalMsg h = (h, [])) ∧
    (∀ (h : Handler K) (c : String), marshal (GetAllPlayers h.game) = some c →
      marshalMsg (GetAllPlayers h.game) ≠ none →
      ∃ b, (broadcastGameState marshal marshalMsg h).1.lastGameState = some b ∧
        bytesOf (marshal b) = c) ∧
    (∀ (h : Handler K) (g : GameState K) (c : String),
      marshal (GetAllPlayers h.game) = some c → marshalMsg (GetAllPlayers h.game) ≠ none →
      marshal (GetAllPlayers g) = some c →
      (broadcastGameState marshal marshalMsg
        { game := g,
          lastGameState := (broadcastGameState marshal marshalMsg h).1.lastGameState }).2 = []) := by
  refine ⟨fun h last hl he => broadcast_unchanged marshal marshalMsg h last hl he,
    fun h c hc hm => broadcast_baseline marshal marshalMsg h c hc hm, ?_⟩
  intro h g c hc hm hg
  obtain ⟨b, hb, hbytes⟩ := broadcast_baseline marshal marshalMsg h c hc hm
  rw [broadcast_skip_bytes marshal marshalMsg
    { game := g, lastGameState := (broadcastGameState marshal marshalMsg h).1.lastGameState }
    b c hb hg hbytes]

end LifecycleClaims

/-! ## Further lemmas on the table, the tick and the position setter -/

section MoreTableLemmas

variable {K : Type}

theorem lookup_append_of_none (id : String) (ps qs : List (String × Player K))
    (h : lookup id ps = none) : lookup id (ps ++ qs) = lookup id qs := by
  induction ps with
  | nil => rfl
  | cons e rest ih =>
    obtain ⟨k, v⟩ := e
    rw [lookup_cons] at h
    by_cases hk : k = id
    · rw [if_pos hk] at h
      exact Option.noConfusion h
    · rw [if_neg hk] at h
      rw [List.cons_append, lookup_cons, if_neg hk]
      exact ih h

theorem lookup_append_of_ne (id k : String) (v : Player K) (ps : List (String × Player K))
    (h : id ≠ k) : lookup id (ps ++ [(k, v)]) = lookup id ps := by
  induction ps with
  | nil =>
    rw [List.nil_append, lookup_cons, if_neg (fun e => h e.symm)]
  | cons e rest ih =>
    obtain ⟨k', v'⟩ := e
    rw [List.cons_append, lookup_cons, lookup_cons, ih]

theorem insert_of_absent (id : String) (p : Player K) (ps : List (String × Player K))
    (h : lookup id ps = none) : insert id p ps = ps ++ [(id, p)] := by
  unfold insert
  rw [h]

end MoreTableLemmas

section MorePhysicsLemmas

variable {K : Type} [LinearOrderedField K]

theorem collideAll_one (ops : MathOps K) (i : String) (a : Player K) :
    collideAll ops [(i, a)] = [(i, a)] := by
  simp only [collideAll, collideAllIn, List.map, List.foldl]
  exact collideStep_skip ops i i _ le_rfl

theorem clampAxis_eq_max_min (hi t : K) (h : 15 ≤ hi) :
    clampAxis hi t = max 15 (min hi t) := by
  unfold clampAxis
  by_cases h1 : t < 15
  · rw [if_pos h1, min_eq_right (le_trans (le_of_lt h1) h), max_eq_left (le_of_lt h1)]
  · rw [if_neg h1]
    by_cases h2 : t > hi
    · rw [if_pos h2, min_eq_left (le_of_lt h2), max_eq_right h]
    · rw [if_neg h2, min_eq_right (not_lt.mp h2), max_eq_right (not_lt.mp h1)]

theorem bounceAxis_eq (hi t v : K) :
    bounceAxis hi t v
      = if 15 ≤ t ∧ t ≤ hi then (98 / 100) * v else -(7 / 10) * ((98 / 100) * v) := by
  unfold bounceAxis
  by_cases h1 : t < 15
  · rw [if_pos h1, if_neg (fun h => absurd h.1 (not_le.mpr h1))]
    ring
  · rw [if_neg h1]
    by_cases h2 : t > hi
    · rw [if_pos h2, if_neg (fun h => absurd h.2 (not_le.mpr h2))]
      ring
    · rw [if_neg h2, if_pos ⟨not_lt.mp h1, not_lt.mp h2⟩]
      ring

theorem resolvePair_position (ops : MathOps K) (a b : Player K) (h : collides ops a b) :
    (resolvePair ops a b).1.X = a.X - normalX ops a b * ((30 - pairDist ops a b) / 2) ∧
    (resolvePair ops a b).1.Y = a.Y - normalY ops a b * ((30 - pairDist ops a b) / 2) ∧
    (resolvePair ops a b).2.X = b.X + normalX ops a b * ((30 - pairDist ops a b) / 2) ∧
    (resolvePair ops a b).2.Y = b.Y + normalY ops a b * ((30 - pairDist ops a b) / 2) := by
  have h30 : (15 : K) * 2 = 30 := by norm_num
  unfold resolvePair normalX normalY
  simp only [if_pos h, h30, and_self]

theorem normal_unit (ops : MathOps K) (a b : Player K) (hd : pairDist ops a b ≠ 0)
    (hs : pairDist ops a b * pairDist ops a b = distSq a b) :
    normalX ops a b * normalX ops a b + normalY ops a b * normalY ops a b = 1 := by
  unfold normalX normalY
  unfold distSq at hs
  generalize pairDist ops a b = d at hd hs
  field_simp
  linear_combination (-1 : K) * hs

theorem bounceScan_cons_self (ops : MathOps K) (id : String) (x y : K) (o : Player K)
    (rest : List (String × Player K)) :
    bounceScan ops id x y ((id, o) :: rest) = bounceScan ops id x y rest := by
  rw [bounceScan]
  simp only [if_true]

theorem bounceScan_cons_hit (ops : MathOps K) (id k : String) (x y : K) (o : Player K)
    (rest : List (String × Player K)) (hk : k ≠ id) (h : overlaps x y o) :
    bounceScan ops id x y ((k, o) :: rest)
      = (clampAxis 785 (o.X + ops.cos (ops.atan2 (y - o.Y) (x - o.X)) * 30),
          clampAxis 585 (o.Y + ops.sin (ops.atan2 (y - o.Y) (x - o.X)) * 30), true) := by
  have h30 : (15 : K) * 2 = 30 := by norm_num
  have h900 : (30 : K) * 30 = 900 := by norm_num
  unfold overlaps at h
  rw [bounceScan]
  simp only [if_neg hk, h30, h900, if_pos h]
  rfl

theorem bounceScan_cons_miss (ops : MathOps K) (id k : String) (x y : K) (o : Player K)
    (rest : List (String × Player K)) (hk : k ≠ id) (h : ¬ overlaps x y o) :
    bounceScan ops id x y ((k, o) :: rest) = bounceScan ops id x y rest := by
  have h30 : (15 : K) * 2 = 30 := by norm_num
  have h900 : (30 : K) * 30 = 900 := by norm_num
  unfold overlaps at h
  rw [bounceScan]
  simp only [if_neg hk, h30, h900, if_neg h]

theorem bounceScan_clear (ops : MathOps K) (id : String) (x y : K)
    (ps : List (String × Player K))
    (h : ∀ e, e ∈ ps → e.1 ≠ id → ¬ overlaps x y e.2) :
    bounceScan ops id x y ps = (x, y, false) := by
  induction ps with
  | nil => rfl
  | cons e rest ih =>
    obtain ⟨k, o⟩ := e
    have hrest := ih (fun e he => h e (List.mem_cons_of_mem _ he))
    by_cases hk : k = id
    · rw [hk, bounceScan_cons_self, hrest]
    · rw [bounceScan_cons_miss ops id k x y o rest hk (h (k, o) (List.mem_cons_self _ _) hk),
        hrest]

theorem bounceScan_overlap (ops : MathOps K) (id : String) (x y : K)
    (ps : List (String × Player K))
    (h : ∃ e, e ∈ ps ∧ e.1 ≠ id ∧ overlaps x y e.2) :
    ∃ e, e ∈ ps ∧ e.1 ≠ id ∧ overlaps x y e.2 ∧
      bounceScan ops id x y ps
        = (clampAxis 785 (e.2.X + ops.cos (ops.atan2 (y - e.2.Y) (x - e.2.X)) * 30),
            clampAxis 585 (e.2.Y + ops.sin (ops.atan2 (y - e.2.Y) (x - e.2.X)) * 30), true) := by
  induction ps with
  | nil =>
    obtain ⟨e, he, _⟩ := h
    simp at he
  | cons e rest ih =>
    obtain ⟨k, o⟩ := e
    have hrest : (∃ e, e ∈ rest ∧ e.1 ≠ id ∧ overlaps x y e.2) →
        ∃ e, e ∈ (k, o) :: rest ∧ e.1 ≠ id ∧ overlaps x y e.2 ∧
          bounceScan ops id x y rest
            = (clampAxis 785 (e.2.X + ops.cos (ops.atan2 (y - e.2.Y) (x - e.2.X)) * 30),
                clampAxis 585 (e.2.Y + ops.sin (ops.atan2 (y - e.2.Y) (x - e.2.X)) * 30),
                true) := by
      intro h'
      obtain ⟨e, he, h1, h2, h3⟩ := ih h'
      exact ⟨e, List.mem_cons_of_mem _ he, h1, h2, h3⟩
    have hother : ¬ (k ≠ id ∧ overlaps x y o) → ∃ e, e ∈ rest ∧ e.1 ≠ id ∧ overlaps x y e.2 := by
      intro hno
      obtain ⟨e, he, h1, h2⟩ := h
      rcases List.mem_cons.mp he with h0 | h0
      · rw [h0] at h1 h2
        exact absurd ⟨h1, h2⟩ hno
      · exact ⟨e, h0, h1, h2⟩
    by_cases hk : k = id
    · rw [hk, bounceScan_cons_self]
      rw [hk] at hrest
      exact hrest (hother (fun hh => hh.1 hk))
    · by_cases ho : overlaps x y o
      · exact ⟨(k, o), List.mem_cons_self _ _, hk, ho, bounceScan_cons_hit ops id k x y o rest hk ho⟩
      · rw [bounceScan_cons_miss ops id k x y o rest hk ho]
        exact hrest (hother (fun hh => ho hh.2))

theorem UpdatePlayerPosition_inside (ops : MathOps K) (st : GameState K) (id : String)
    (x y : K) (now : Time) (p : Player K) (hp : lookup id st.Players = some p)
    (hin : ¬ (x < 15 ∨ x > 785 ∨ y < 15 ∨ y > 585)) :
    lookup id (UpdatePlayerPosition ops st id x y now).Players
      = some { (if (bounceScan ops id x y st.Players).2.2 = true
                then { p with X := (bounceScan ops id x y st.Players).1,
                              Y := (bounceScan ops id x y st.Players).2.1 }
                else { p with X := x, Y := y }) with LastSeen := now } := by
  unfold UpdatePlayerPosition
  rw [hp]
  simp only
  rw [if_neg hin]
  exact lookup_setPlayer_self id _ st.Players p hp

theorem spawnCollision_false (ps : List (String × Player K)) (x y : K)
    (h : spawnCollision ps x y = false) (e : String × Player K) (he : e ∈ ps) :
    900 ≤ (x - e.2.X) * (x - e.2.X) + (y - e.2.Y) * (y - e.2.Y) := by
  unfold spawnCollision at h
  rw [List.any_eq_false] at h
  have := h e he
  have h900 : (15 : K) * 2 * (15 * 2) = 900 := by norm_num
  rw [h900] at this
  simpa using this

theorem randomPositionLoop_accept (ps : List (String × Player K)) (draws : Nat → Nat × Nat)
    (n attempt : Nat)
    (h : ∃ k, attempt ≤ k ∧ k < attempt + n ∧ ¬ trialRejected ps draws k) :
    spawnCollision ps (randomPositionLoop ps draws n attempt).1
      (randomPositionLoop ps draws n attempt).2 = false := by
  induction n generalizing attempt with
  | zero =>
    obtain ⟨k, h1, h2, _⟩ := h
    omega
  | succ n ih =>
    unfold randomPositionLoop
    simp only
    have hrest : (¬ ¬ trialRejected ps draws attempt) →
        spawnCollision ps (randomPositionLoop ps draws n (attempt + 1)).1
          (randomPositionLoop ps draws n (attempt + 1)).2 = false := by
      intro hrej
      obtain ⟨k, h1, h2, h3⟩ := h
      have hk : k ≠ attempt := fun e => hrej (e ▸ h3)
      exact ih (attempt + 1) ⟨k, by omega, by omega, h3⟩
    by_cases hb : ((draws attempt).1 : K) < 15 ∨ ((draws attempt).1 : K) > 785 ∨
        ((draws attempt).2 : K) < 15 ∨ ((draws attempt).2 : K) > 585
    · rw [if_pos hb]
      exact hrest (fun hn => hn (Or.inl hb))
    · rw [if_neg hb]
      by_cases hc : spawnCollision ps ((draws attempt).1 : K) ((draws attempt).2 : K) = true
      · rw [if_pos hc]
        exact hrest (fun hn => hn (Or.inr hc))
      · rw [if_neg hc]
        simpa using hc

end MorePhysicsLemmas

/-! ## Claims on the spawn search, the inputs and the position setter -/

section InputClaims

variable {K : Type} [LinearOrderedField K]

/-- C11 fails as stated: one participant stands on the centre `(400, 300)` and every trial
is rejected (here each draw is `(0, 0)`, out of bounds); `GetRandomPosition` returns the
fallback `(400, 300)`, at distance `0` from that participant, although the rest of the arena
is free. -/
theorem C11_spawn_fallback_collides :
    GetRandomPosition (solo (body "a" 400 300 0 0)) (fun _ => (0, 0)) = (400, 300) ∧
    (400 - (body "a" 400 300 0 0).X) * (400 - (body "a" 400 300 0 0).X)
      + (300 - (body "a" 400 300 0 0).Y) * (300 - (body "a" 400 300 0 0).Y) < (900 : ℚ) := by
  refine ⟨?_, by norm_num [body]⟩
  exact randomPositionLoop_fallback _ _ 100 0 (fun k _ _ => Or.inl (Or.inl (by norm_num)))

/-- C11 as amended: when at least one of the hundred trials is accepted (in bounds and at
squared distance at least `900` from every participant), the returned coordinate is at
squared distance at least `900`, that is distance at least `30`, from every participant. -/
theorem C11_spawn_accepted_trial_is_clear (st : GameState K) (draws : Nat → Nat × Nat)
    (h : ∃ k, k < 100 ∧ ¬ trialRejected st.Players draws k) :
    ∀ e, e ∈ st.Players →
      900 ≤ ((GetRandomPosition st draws).1 - e.2.X) * ((GetRandomPosition st draws).1 - e.2.X)
        + ((GetRandomPosition st draws).2 - e.2.Y) * ((GetRandomPosition st draws).2 - e.2.Y) := by
  obtain ⟨k, hk, hrej⟩ := h
  intro e he
  exact spawnCollision_false st.Players _ _
    (randomPositionLoop_accept st.Players draws 100 0 ⟨k, Nat.zero_le k, by omega, hrej⟩) e he


/-- C11 (amended) at a concrete input: the first trial `(100, 100)` is accepted. -/
theorem C11_spawn_accepted_trial_is_clear_witness :
    GetRandomPosition (solo (body "a" 400 300 0 0)) (fun _ => (100, 100)) = (100, 100) ∧
    ∀ e, e ∈ (solo (body "a" 400 300 0 0)).Players →
      900 ≤ ((GetRandomPosition (solo (body "a" 400 300 0 0)) (fun _ => (100, 100))).1 - e.2.X)
          * ((GetRandomPosition (solo (body "a" 400 300 0 0)) (fun _ => (100, 100))).1 - e.2.X)
        + ((GetRandomPosition (solo (body "a" 400 300 0 0)) (fun _ => (100, 100))).2 - e.2.Y)
          * ((GetRandomPosition (solo (body "a" 400 300 0 0)) (fun _ => (100, 100))).2 - e.2.Y) :=
  ⟨by
      unfold GetRandomPosition
      rw [show (100 : Nat) = 99 + 1 from rfl, randomPositionLoop]
      norm_num [spawnCollision, solo, body],
    C11_spawn_accepted_trial_is_clear (solo (body "a" 400 300 0 0)) (fun _ => (100, 100))
      ⟨0, by norm_num, by norm_num [trialRejected, spawnCollision, solo, body]⟩⟩

/-- C12: for a present `id`, `ApplyInput(id, key)` yields for `w` the participant with `Vy`
decreased by `2.5`, for `s` with `Vy` increased by `2.5`, for `a` with `Vx` decreased by
`2.5`, for `d` with `Vx` increased by `2.5` (every other field of the participant as before),
and for any other key the state unchanged; for every key the other participants, the keys of
the table and `PlayerCount` are unchanged. -/
theorem C12_discrete_key_input (st : GameState K) (id : String) (p : Player K)
    (hp : lookup id st.Players = some p) :
    lookup id (ApplyInput st id "w").Players = some { p with Vy := p.Vy - 5 / 2 } ∧
    lookup id (ApplyInput st id "s").Players = some { p with Vy := p.Vy + 5 / 2 } ∧
    lookup id (ApplyInput st id "a").Players = some { p with Vx := p.Vx - 5 / 2 } ∧
    lookup id (ApplyInput st id "d").Players = some { p with Vx := p.Vx + 5 / 2 } ∧
    (∀ key : String, key ≠ "w" → key ≠ "s" → key ≠ "a" → key ≠ "d" →
      ApplyInput st id key = st) ∧
    (∀ (key k : String), k ≠ id →
      lookup k (ApplyInput st id key).Players = lookup k st.Players) ∧
    (∀ key : String, (ApplyInput st id key).Players.map Prod.fst = st.Players.map Prod.fst ∧
      (ApplyInput st id key).PlayerCount = st.PlayerCount) := by
  have hs : ¬ ("s" = "w") := by decide
  have ha : ¬ ("a" = "w") ∧ ¬ ("a" = "s") := by decide
  have hd : ¬ ("d" = "w") ∧ ¬ ("d" = "s") ∧ ¬ ("d" = "a") := by decide
  refine ⟨?_, ?_, ?_, ?_, ?_, ?_, ?_⟩
  · unfold ApplyInput
    rw [hp]
    simp only [if_true]
    exact lookup_setPlayer_self id _ st.Players p hp
  · unfold ApplyInput
    rw [hp]
    simp only [if_neg hs, if_true]
    exact lookup_setPlayer_self id _ st.Players p hp
  · unfold ApplyInput
    rw [hp]
    simp only [if_neg ha.1, if_neg ha.2, if_true]
    exact lookup_setPlayer_self id _ st.Players p hp
  · unfold ApplyInput
    rw [hp]
    simp only [if_neg hd.1, if_neg hd.2.1, if_neg hd.2.2, if_true]
    exact lookup_setPlayer_self id _ st.Players p hp
  · intro key h1 h2 h3 h4
    unfold ApplyInput
    rw [hp]
    simp only [if_neg h1, if_neg h2, if_neg h3, if_neg h4]
  · intro key k hk
    unfold ApplyInput
    rw [hp]
    simp only
    split_ifs <;> first | rfl | exact lookup_setPlayer_other id k _ st.Players hk
  · intro key
    unfold ApplyInput
    rw [hp]
    simp only
    split_ifs <;> first | exact ⟨rfl, rfl⟩ | exact ⟨keys_setPlayer id _ st.Players, rfl⟩

/-- C12 at a concrete input: `w` turns `Vy = 2` into `-0.5`; the key `W` changes nothing. -/
theorem C12_discrete_key_input_witness :
    lookup "a" (duo (body "a" 100 300 1 2) (body "b" 200 300 0 0)).Players
      = some (body "a" 100 300 1 2) ∧
    lookup "a" (ApplyInput (duo (body "a" 100 300 1 2) (body "b" 200 300 0 0)) "a" "w").Players
      = some (body "a" 100 300 1 (-(1 / 2))) ∧
    ApplyInput (duo (body "a" 100 300 1 2) (body "b" 200 300 0 0)) "a" "W"
      = duo (body "a" 100 300 1 2) (body "b" 200 300 0 0) := by
  have h := C12_discrete_key_input (duo (body "a" 100 300 1 2) (body "b" 200 300 0 0))
    "a" (body "a" 100 300 1 2) (by simp [lookup, duo])
  refine ⟨by simp [lookup, duo], ?_,
    h.2.2.2.2.1 "W" (by decide) (by decide) (by decide) (by decide)⟩
  rw [h.1]
  norm_num [body]

/-- C13: for an identifier absent from the table, `RemovePlayer`, `ApplyInput` (every key)
and `UpdatePlayerPosition` (every proposal) return the state unchanged, and `GetPlayer`
returns absent. -/
theorem C13_stale_reference_is_noop (st : GameState K) (id : String)
    (habs : lookup id st.Players = none) :
    RemovePlayer st id = st ∧
    (∀ key : String, ApplyInput st id key = st) ∧
    (∀ (ops : MathOps K) (x y : K) (now : Time), UpdatePlayerPosition ops st id x y now = st) ∧
    GetPlayer st id = none := by
  refine ⟨?_, ?_, ?_, habs⟩
  · unfold RemovePlayer
    rw [habs]
  · intro key
    unfold ApplyInput
    rw [habs]
  · intro ops x y now
    unfold UpdatePlayerPosition
    rw [habs]

/-- C13 at a concrete input: the identifier `zz` in the table of A, B and C. -/
theorem C13_stale_reference_is_noop_witness :
    lookup "zz" threeJoined.Players = none ∧
    (RemovePlayer threeJoined "zz" = threeJoined ∧
    (∀ key : String, ApplyInput threeJoined "zz" key = threeJoined) ∧
    (∀ (ops : MathOps ℚ) (x y : ℚ) (now : Time),
      UpdatePlayerPosition ops threeJoined "zz" x y now = threeJoined) ∧
    GetPlayer threeJoined "zz" = none) :=
  ⟨by decide, C13_stale_reference_is_noop threeJoined "zz" (by decide)⟩

/-- C15: for a state with a single participant at `(x, y)` with velocity `(vx, vy)`, after
`Tick` the position is `x + vx` clamped to `[15, 785]` and `y + vy` clamped to `[15, 585]`,
and on each axis the velocity is `0.98 * v` when the moved coordinate is within the bounds and
`-0.7 * 0.98 * v` otherwise; nothing else changes. -/
theorem C15_integration_friction_walls (ops : MathOps K) (i : String) (p : Player K) (n : Int) :
    Tick ops { Players := [(i, p)], PlayerCount := n }
      = { Players := [(i, { p with
            X := max 15 (min 785 (p.X + p.Vx)),
            Y := max 15 (min 585 (p.Y + p.Vy)),
            Vx := if 15 ≤ p.X + p.Vx ∧ p.X + p.Vx ≤ 785 then (98 / 100) * p.Vx
              else -(7 / 10) * ((98 / 100) * p.Vx),
            Vy := if 15 ≤ p.Y + p.Vy ∧ p.Y + p.Vy ≤ 585 then (98 / 100) * p.Vy
              else -(7 / 10) * ((98 / 100) * p.Vy) })],
          PlayerCount := n } := by
  have e : (Tick ops { Players := [(i, p)], PlayerCount := n }).Players = [(i, integrate p)] := by
    simp only [Tick, List.map]
    exact collideAll_one ops i _
  have e2 : Tick ops { Players := [(i, p)], PlayerCount := n }
      = { Players := [(i, integrate p)], PlayerCount := n } := by
    cases hT : Tick ops { Players := [(i, p)], PlayerCount := n } with
    | mk ps c =>
      have hc : (Tick ops { Players := [(i, p)], PlayerCount := n }).PlayerCount = n := rfl
      rw [hT] at e hc
      simp only at e hc
      rw [e, hc]
  rw [e2, integrate_eq, clampAxis_eq_max_min 785 _ (by norm_num),
    clampAxis_eq_max_min 585 _ (by norm_num), bounceAxis_eq, bounceAxis_eq]

/-- C16: for a present `id` and an in-bounds proposal `(x, y)`: when no other participant
is at squared distance below `900` from `(x, y)`, the position of `id` becomes exactly
`(x, y)`; otherwise it becomes, for one of the other participants `e` that `(x, y)` overlaps,
the point `e + 30 * u` with each coordinate clamped to `[15, 785]` and `[15, 585]`, where `u`
is the unit direction from `e` to `(x, y)` (the direction of angle zero when they coincide).
The functions `Atan2`, `Cos`, `Sin` are taken exact at the overlapped participants. -/
theorem C16_update_position_bounce (ops : MathOps K) (st : GameState K) (id : String)
    (x y : K) (now : Time) (p : Player K) (hp : lookup id st.Players = some p)
    (hin : ¬ (x < 15 ∨ x > 785 ∨ y < 15 ∨ y > 585))
    (htrig : ∀ e, e ∈ st.Players → e.1 ≠ id → overlaps x y e.2 →
      trigExactAt ops (x - e.2.X) (y - e.2.Y)) :
    ((∀ e, e ∈ st.Players → e.1 ≠ id → ¬ overlaps x y e.2) →
      lookup id (UpdatePlayerPosition ops st id x y now).Players
        = some { p with X := x, Y := y, LastSeen := now }) ∧
    ((∃ e, e ∈ st.Players ∧ e.1 ≠ id ∧ overlaps x y e.2) →
      ∃ e ux uy, e ∈ st.Players ∧ e.1 ≠ id ∧ overlaps x y e.2 ∧
        unitToward (x - e.2.X) (y - e.2.Y) ux uy ∧
        lookup id (UpdatePlayerPosition ops st id x y now).Players
          = some { p with
              X := max 15 (min 785 (e.2.X + ux * 30)),
              Y := max 15 (min 585 (e.2.Y + uy * 30)),
              LastSeen := now }) := by
  refine ⟨fun hclear => ?_, fun hov => ?_⟩
  · rw [UpdatePlayerPosition_inside ops st id x y now p hp hin,
      bounceScan_clear ops id x y st.Players hclear]
    simp
  · obtain ⟨e, he, hk, ho, hb⟩ := bounceScan_overlap ops id x y st.Players hov
    refine ⟨e, _, _, he, hk, ho, htrig e he hk ho, ?_⟩
    rw [UpdatePlayerPosition_inside ops st id x y now p hp hin, hb,
      clampAxis_eq_max_min 785 _ (by norm_num), clampAxis_eq_max_min 585 _ (by norm_num)]
    simp

/-- C16 at a concrete input: the proposal `(110, 300)` overlaps `b` at `(120, 300)`; the
direction from `b` is `(-1, 0)` and the stored position is `(90, 300)`. -/
theorem C16_update_position_bounce_witness :
    lookup "a" (UpdatePlayerPosition ratOps
        (duo (body "a" 100 300 0 0) (body "b" 120 300 0 0)) "a" 110 300 7).Players
      = some { body "a" 90 300 0 0 with LastSeen := 7 } ∧
    ∃ e ux uy, e ∈ (duo (body "a" 100 300 0 0) (body "b" 120 300 0 0)).Players ∧ e.1 ≠ "a" ∧
      overlaps 110 300 e.2 ∧ unitToward (110 - e.2.X) (300 - e.2.Y) ux uy ∧
      lookup "a" (UpdatePlayerPosition ratOps
          (duo (body "a" 100 300 0 0) (body "b" 120 300 0 0)) "a" 110 300 7).Players
        = some { body "a" 100 300 0 0 with
            X := max 15 (min 785 (e.2.X + ux * 30)),
            Y := max 15 (min 585 (e.2.Y + uy * 30)),
            LastSeen := 7 } := by
  have hba : ¬ ("b" = "a") := by decide
  have hmem : (("b", body "b" 120 300 0 0) : String × Player ℚ)
      ∈ (duo (body "a" 100 300 0 0) (body "b" 120 300 0 0)).Players := by
    simp [duo]
  have hov : overlaps (110 : ℚ) 300 (body "b" 120 300 0 0) := by
    norm_num [overlaps, body]
  have htrig : ∀ e, e ∈ (duo (body "a" 100 300 0 0) (body "b" 120 300 0 0)).Players →
      e.1 ≠ "a" → overlaps 110 300 e.2 → trigExactAt ratOps (110 - e.2.X) (300 - e.2.Y) := by
    intro e he hne _
    have he' : e = ("a", body "a" 100 300 0 0) ∨ e = ("b", body "b" 120 300 0 0) := by
      simpa [duo] using he
    rcases he' with h | h
    · rw [h] at hne
      exact absurd rfl hne
    · rw [h]
      refine ⟨?_, ?_, ?_⟩
      · norm_num [ratOps, quarterAtan2, quarterCos, quarterSin, body]
      · intro h0
        norm_num [body] at h0
      · intro _
        refine ⟨10, by norm_num, ?_, ?_⟩
        · norm_num [ratOps, quarterAtan2, quarterCos, quarterSin, body]
        · norm_num [ratOps, quarterAtan2, quarterCos, quarterSin, body]
  refine ⟨?_, (C16_update_position_bounce ratOps
    (duo (body "a" 100 300 0 0) (body "b" 120 300 0 0)) "a" 110 300 7 (body "a" 100 300 0 0)
    (by simp [lookup, duo]) (by norm_num) htrig).2 ⟨_, hmem, hba, hov⟩⟩
  norm_num [UpdatePlayerPosition, lookup, bounceScan, setPlayer, body, duo, ratOps,
    quarterAtan2, quarterCos, quarterSin, hba]

/-- C17, evaluated at two failing inputs: a login on a new connection whose `lastPosition`
is `(-100, 5000)` admits the participant at `(-100, 5000)`, and one whose `lastPosition` has
only `x = 400` admits it at `(400, 0)`; neither position is inside the arena. -/
theorem C17_login_position_unchecked :
    (handleLogin (NewGameState ℚ) (newConnection "abc" 1 0)
        { name := "eve", color := "", lastPosition := some (some (-100), some 5000) }
        "#FF6B6B" (fun _ => (100, 100)) 1 1).Players
      = [("abc", admitted (-100) 5000)] ∧
    (handleLogin (NewGameState ℚ) (newConnection "abc" 1 0)
        { name := "eve", color := "", lastPosition := some (some 400, none) }
        "#FF6B6B" (fun _ => (100, 100)) 1 1).Players
      = [("abc", admitted 400 0)] ∧
    ¬ inArena (admitted (-100) 5000) ∧ ¬ inArena (admitted 400 0) := by
  refine ⟨?_, ?_, by norm_num [inArena, admitted], by norm_num [inArena, admitted]⟩
  · decide
  · decide

/-- C19: in a state with exactly two participants whose distance `d` after integration and
wall handling satisfies `0 < d < 30` (with `math.Sqrt` exact there), `n = (B - A) / d` is a
unit vector, `Tick` moves `A` by `-(30 - d) / 2` and `B` by `+(30 - d) / 2` along `n`, the
squared distance afterwards is `900` (distance exactly `30`) and the sum of the two positions
(twice the midpoint) is unchanged by the collision step. -/
theorem C19_two_body_separation_exact (ops : MathOps K) (i j : String) (a b : Player K)
    (n : Int) (hij : i ≠ j)
    (hpos : 0 < pairDist ops (integrate a) (integrate b))
    (hlt : pairDist ops (integrate a) (integrate b) < 30)
    (hs : pairDist ops (integrate a) (integrate b) * pairDist ops (integrate a) (integrate b)
      = distSq (integrate a) (integrate b)) :
    normalX ops (integrate a) (integrate b) * normalX ops (integrate a) (integrate b)
      + normalY ops (integrate a) (integrate b) * normalY ops (integrate a) (integrate b) = 1 ∧
    ∃ a' b', lookup i (Tick ops { Players := [(i, a), (j, b)], PlayerCount := n }).Players = some a'
      ∧ lookup j (Tick ops { Players := [(i, a), (j, b)], PlayerCount := n }).Players = some b'
      ∧ a'.X = (integrate a).X - normalX ops (integrate a) (integrate b)
          * ((30 - pairDist ops (integrate a) (integrate b)) / 2)
      ∧ a'.Y = (integrate a).Y - normalY ops (integrate a) (integrate b)
          * ((30 - pairDist ops (integrate a) (integrate b)) / 2)
      ∧ b'.X = (integrate b).X + normalX ops (integrate a) (integrate b)
          * ((30 - pairDist ops (integrate a) (integrate b)) / 2)
      ∧ b'.Y = (integrate b).Y + normalY ops (integrate a) (integrate b)
          * ((30 - pairDist ops (integrate a) (integrate b)) / 2)
      ∧ distSq a' b' = 900
      ∧ a'.X + b'.X = (integrate a).X + (integrate b).X
      ∧ a'.Y + b'.Y = (integrate a).Y + (integrate b).Y := by
  have h30 : (15 : K) * 2 = 30 := by norm_num
  have hc : collides ops (integrate a) (integrate b) := ⟨by rw [h30]; exact hlt, hpos⟩
  refine ⟨normal_unit ops _ _ (ne_of_gt hpos) hs, ?_⟩
  rcases lt_or_gt_of_ne hij with h | h
  · obtain ⟨p1, p2, p3, p4⟩ := resolvePair_position ops (integrate a) (integrate b) hc
    refine ⟨(resolvePair ops (integrate a) (integrate b)).1,
      (resolvePair ops (integrate a) (integrate b)).2, ?_, ?_, p1, p2, p3, p4,
      resolvePair_distSq ops _ _ hc hs, ?_, ?_⟩
    · rw [Tick_two_lt ops i j a b n h]; simp [lookup]
    · rw [Tick_two_lt ops i j a b n h]; simp [lookup, hij]
    · rw [p1, p3]; ring
    · rw [p2, p4]; ring
  · have hc' : collides ops (integrate b) (integrate a) := (collides_symm ops _ _).mpr hc
    have hs' : pairDist ops (integrate b) (integrate a) * pairDist ops (integrate b) (integrate a)
        = distSq (integrate b) (integrate a) := by
      rw [pairDist_symm, distSq_symm]; exact hs
    obtain ⟨p1, p2, p3, p4⟩ := resolvePair_position ops (integrate b) (integrate a) hc'
    have nx : normalX ops (integrate b) (integrate a) = -normalX ops (integrate a) (integrate b) := by
      unfold normalX
      rw [pairDist_symm ops (integrate a) (integrate b)]
      ring
    have ny : normalY ops (integrate b) (integrate a) = -normalY ops (integrate a) (integrate b) := by
      unfold normalY
      rw [pairDist_symm ops (integrate a) (integrate b)]
      ring
    rw [nx, pairDist_symm ops (integrate a) (integrate b)] at p1 p3
    rw [ny, pairDist_symm ops (integrate a) (integrate b)] at p2 p4
    refine ⟨(resolvePair ops (integrate b) (integrate a)).2,
      (resolvePair ops (integrate b) (integrate a)).1, ?_, ?_, ?_, ?_, ?_, ?_, ?_, ?_, ?_⟩
    · rw [Tick_two_gt ops i j a b n h]; simp [lookup]
    · rw [Tick_two_gt ops i j a b n h]; simp [lookup, hij]
    · rw [p3]; ring
    · rw [p4]; ring
    · rw [p1]; ring
    · rw [p2]; ring
    · rw [distSq_symm]
      exact resolvePair_distSq ops _ _ hc' hs'
    · rw [p1, p3]; ring
    · rw [p2, p4]; ring

/-- C19 at a concrete input: two participants at rest twenty units apart end thirty units
apart, each moved by five. -/
theorem C19_two_body_separation_exact_witness :
    (Tick ratOps (duo (body "a" 100 300 0 0) (body "b" 120 300 0 0))).Players
      = [("a", body "a" 95 300 0 0), ("b", body "b" 125 300 0 0)] ∧
    ∃ a' b', lookup "a" (Tick ratOps (duo (body "a" 100 300 0 0)
          (body "b" 120 300 0 0))).Players = some a'
      ∧ lookup "b" (Tick ratOps (duo (body "a" 100 300 0 0)
          (body "b" 120 300 0 0))).Players = some b'
      ∧ distSq a' b' = 900 := by
  have ja : integrate (body "a" 100 300 0 0) = body "a" 100 300 0 0 := by
    rw [integrate_body]; norm_num [clampAxis, bounceAxis]
  have jb : integrate (body "b" 120 300 0 0) = body "b" 120 300 0 0 := by
    rw [integrate_body]; norm_num [clampAxis, bounceAxis]
  have hd : pairDist ratOps (body "a" 100 300 0 0) (body "b" 120 300 0 0) = 20 :=
    pairDist_ratOps _ _ 20 (by norm_num) (by norm_num [distSq, body])
  obtain ⟨_, a', b', h1, h2, _, _, _, _, h3, _, _⟩ :=
    C19_two_body_separation_exact ratOps "a" "b" (body "a" 100 300 0 0) (body "b" 120 300 0 0) 2
      (by decide) (by rw [ja, jb, hd]; norm_num) (by rw [ja, jb, hd]; norm_num)
      (by rw [ja, jb, hd]; norm_num [distSq, body])
  refine ⟨?_, a', b', h1, h2, h3⟩
  unfold duo
  rw [Tick_two_lt _ _ _ _ _ _ str_a_lt_b, ja, jb,
    resolvePair_ratOps_hit _ _ 20 (by norm_num) (by norm_num) (by norm_num [distSq, body])]
  norm_num [body]

/-- C20: for a proposal with `x < 15`, `x > 785`, `y < 15` or `y > 585`,
`UpdatePlayerPosition` returns the whole state unchanged (position and `LastSeen` of `id`
included), whether `id` is present or not. -/
theorem C20_out_of_bounds_rejected (ops : MathOps K) (st : GameState K) (id : String)
    (x y : K) (now : Time) (hout : x < 15 ∨ x > 785 ∨ y < 15 ∨ y > 585) :
    UpdatePlayerPosition ops st id x y now = st := by
  unfold UpdatePlayerPosition
  cases hl : lookup id st.Players with
  | none => rfl
  | some p =>
    simp only
    rw [if_pos hout]

/-- C20 at a concrete input: the proposal `(790, 300)` for the present participant `a`. -/
theorem C20_out_of_bounds_rejected_witness :
    lookup "a" (duo (body "a" 100 300 0 0) (body "b" 200 300 0 0)).Players
      = some (body "a" 100 300 0 0) ∧
    UpdatePlayerPosition ratOps (duo (body "a" 100 300 0 0) (body "b" 200 300 0 0))
        "a" 790 300 9
      = duo (body "a" 100 300 0 0) (body "b" 200 300 0 0) :=
  ⟨by simp [lookup, duo],
    C20_out_of_bounds_rejected ratOps _ "a" 790 300 9 (Or.inr (Or.inl (by norm_num)))⟩

end InputClaims

section AdmissionClaims

variable {K : Type}

/-- C14: when `PlayerCount` is the number `N` of participants in the table and `p.ID` is not
in the table, after `AddPlayer(p)` the table maps `p.ID` to `p` with `PlayerNum = N + 1`, with
the supplied name when it is non-empty and `"Player "` followed by `N + 1` otherwise, and with
`JoinedAt` and `LastSeen` set to the two readings of the clock; every other key reads as
before, and `PlayerCount` is again the number of participants. -/
theorem C14_add_player_postcondition (st : GameState K) (p : Player K) (now₁ now₂ : Time)
    (hcount : st.PlayerCount = (st.Players.length : Int))
    (hfresh : lookup p.ID st.Players = none) :
    lookup p.ID (AddPlayer st p now₁ now₂).Players
      = some { p with
          PlayerNum := (st.Players.length : Int) + 1,
          Name := if p.Name = "" then sprintfPlayer ((st.Players.length : Int) + 1) else p.Name,
          JoinedAt := now₁,
          LastSeen := now₂ } ∧
    (∀ k : String, k ≠ p.ID →
      lookup k (AddPlayer st p now₁ now₂).Players = lookup k st.Players) ∧
    (AddPlayer st p now₁ now₂).Players.map Prod.fst = st.Players.map Prod.fst ++ [p.ID] ∧
    (AddPlayer st p now₁ now₂).PlayerCount = ((AddPlayer st p now₁ now₂).Players.length : Int) := by
  have e : (AddPlayer st p now₁ now₂).Players = st.Players ++ [(p.ID,
      { p with
          PlayerNum := (st.Players.length : Int) + 1,
          Name := if p.Name = "" then sprintfPlayer ((st.Players.length : Int) + 1) else p.Name,
          JoinedAt := now₁,
          LastSeen := now₂ })] := by
    unfold AddPlayer
    simp only
    rw [hcount]
    by_cases hn : p.Name = ""
    · simp only [hn, if_true]
      exact insert_of_absent _ _ _ hfresh
    · simp only [hn, if_false]
      exact insert_of_absent _ _ _ hfresh
  refine ⟨?_, ?_, ?_, ?_⟩
  · rw [e, lookup_append_of_none _ _ _ hfresh, lookup_cons, if_pos rfl]
  · intro k hk
    rw [e, lookup_append_of_ne _ _ _ _ hk]
  · rw [e, List.map_append]
    rfl
  · rw [e, List.length_append]
    show st.PlayerCount + 1 = _
    rw [hcount]
    simp

/-- C14 at a concrete input: the first participant of the empty store, without a name. -/
theorem C14_add_player_postcondition_witness :
    (NewGameState ℚ).PlayerCount = ((NewGameState ℚ).Players.length : Int) ∧
    lookup "A" (NewGameState ℚ).Players = none ∧
    lookup "A" (AddPlayer (NewGameState ℚ) (guest "A" "" 0 0) 5 6).Players
      = some { guest "A" "Player 1" 1 5 with LastSeen := 6 } := by
  have h := C14_add_player_postcondition (NewGameState ℚ) (guest "A" "" 0 0) 5 6 rfl rfl
  exact ⟨rfl, rfl, h.1.trans (by decide)⟩

/-- C18: `ApplyVelocityInput(id, vx, vy)` sets the velocity of a present participant `id` to
exactly `(vx, vy)` (every other field as before) and leaves the other participants, the keys
of the table and `PlayerCount` unchanged; for an absent `id` it returns the state unchanged. -/
theorem C18_velocity_input (st : GameState K) (id : String) (vx vy : K) :
    (∀ p : Player K, lookup id st.Players = some p →
      lookup id (ApplyVelocityInput st id vx vy).Players = some { p with Vx := vx, Vy := vy }) ∧
    (∀ k : String, k ≠ id →
      lookup k (ApplyVelocityInput st id vx vy).Players = lookup k st.Players) ∧
    (ApplyVelocityInput st id vx vy).Players.map Prod.fst = st.Players.map Prod.fst ∧
    (ApplyVelocityInput st id vx vy).PlayerCount = st.PlayerCount ∧
    (lookup id st.Players = none → ApplyVelocityInput st id vx vy = st) := by
  unfold ApplyVelocityInput
  cases hl : lookup id st.Players with
  | none =>
    refine ⟨fun p hp => Option.noConfusion hp, fun k _ => rfl, rfl, rfl, fun _ => rfl⟩
  | some p =>
    refine ⟨?_, ?_, keys_setPlayer id _ st.Players, rfl, fun h => Option.noConfusion h⟩
    · intro q hq
      rw [← Option.some.inj hq]
      exact lookup_setPlayer_self id _ st.Players p hl
    · intro k hk
      exact lookup_setPlayer_other id k _ st.Players hk

end AdmissionClaims

/-! ## Lemmas and claims on call sequences and on the enumeration order -/

section SequenceLemmas

variable {K : Type}

theorem numbered_empty : numbered (NewGameState K) := by
  refine ⟨List.nodup_nil, rfl, ?_⟩
  exact List.Perm.refl _

theorem AddPlayer_players_fresh (st : GameState K) (p : Player K) (now₁ now₂ : Time)
    (hfresh : lookup p.ID st.Players = none) :
    ∃ q : Player K, q.PlayerNum = st.PlayerCount + 1 ∧
      (AddPlayer st p now₁ now₂).Players = st.Players ++ [(p.ID, q)] ∧
      (AddPlayer st p now₁ now₂).PlayerCount = st.PlayerCount + 1 := by
  unfold AddPlayer
  simp only
  by_cases hn : p.Name = ""
  · simp only [hn, if_true]
    exact ⟨_, rfl, insert_of_absent _ _ _ hfresh, trivial⟩
  · simp only [hn, if_false]
    exact ⟨_, rfl, insert_of_absent _ _ _ hfresh, trivial⟩

theorem numbered_AddPlayer (st : GameState K) (p : Player K) (now₁ now₂ : Time)
    (h : numbered st) (hfresh : lookup p.ID st.Players = none) :
    numbered (AddPlayer st p now₁ now₂) := by
  obtain ⟨hnd, hcount, hperm⟩ := h
  obtain ⟨q, hq, hps, hc⟩ := AddPlayer_players_fresh st p now₁ now₂ hfresh
  unfold numbered
  rw [hps, hc]
  refine ⟨?_, ?_, ?_⟩
  · rw [List.map_append]
    apply List.Nodup.append hnd (List.nodup_singleton _)
    intro k hk1 hk2
    have : k = p.ID := List.mem_singleton.mp hk2
    rw [this] at hk1
    exact (lookup_eq_none_iff p.ID st.Players).mp hfresh hk1
  · rw [hcount, List.length_append]
    simp
  · rw [List.map_append, List.length_append, List.length_singleton, List.range_succ,
      List.map_append]
    apply List.Perm.append hperm
    rw [List.map_cons, List.map_nil, List.map_cons, List.map_nil]
    have e : (st.Players.length : Int) + 1 = q.PlayerNum := by rw [hq, hcount]
    rw [e]

theorem numbered_reorderPlayers (st : GameState K) (hnd : (st.Players.map Prod.fst).Nodup) :
    numbered (reorderPlayers st) := by
  refine ⟨?_, rfl, reorderPlayers_nums st hnd⟩
  rw [reorderPlayers_players, keys_renumber]
  exact hnd

theorem numbered_RemovePlayer (st : GameState K) (id : String) (h : numbered st) :
    numbered (RemovePlayer st id) := by
  unfold RemovePlayer
  cases hl : lookup id st.Players with
  | none => exact h
  | some p =>
    simp only
    exact numbered_reorderPlayers _ (nodup_keys_delete id st.Players h.1)

theorem numbered_runCalls (calls : List (LifecycleCall K)) (st : GameState K)
    (h : numbered st) (hf : freshCalls st calls) : numbered (runCalls st calls) := by
  induction calls generalizing st with
  | nil => exact h
  | cons c rest ih =>
    obtain ⟨hc, hrest⟩ := hf
    apply ih _ _ hrest
    cases c with
    | add player now₁ now₂ => exact numbered_AddPlayer st player now₁ now₂ h hc
    | remove playerID => exact numbered_RemovePlayer st playerID h

theorem setPlayer_of_lookup (id : String) (a : Player K) (ps : List (String × Player K))
    (hnd : (ps.map Prod.fst).Nodup) (h : lookup id ps = some a) : setPlayer id a ps = ps := by
  unfold setPlayer
  conv_rhs => rw [← List.map_id ps]
  apply List.map_congr_left
  intro e he
  by_cases hk : e.1 = id
  · rw [if_pos hk]
    have h1 := lookup_of_mem ps hnd e.1 e.2 he
    rw [hk, h] at h1
    have h2 : a = e.2 := Option.some.inj h1
    rw [h2]
    rfl
  · rw [if_neg hk]
    rfl

end SequenceLemmas

section OrderLemmas

variable {K : Type} [LinearOrderedField K]

theorem collideAll_three_bac (ops : MathOps K) (i j k : String) (a b c : Player K)
    (hij : i < j) (hjk : j < k) :
    collideAll ops [(j, b), (i, a), (k, c)] =
      [(j, (resolvePair ops a (resolvePair ops b c).1).2),
       (i, (resolvePair ops (resolvePair ops a (resolvePair ops b c).1).1
              (resolvePair ops b c).2).1),
       (k, (resolvePair ops (resolvePair ops a (resolvePair ops b c).1).1
              (resolvePair ops b c).2).2)] := by
  have hik : i < k := lt_trans hij hjk
  have n1 : i ≠ j := ne_of_lt hij
  have n2 : j ≠ k := ne_of_lt hjk
  have n3 : i ≠ k := ne_of_lt hik
  have n1' : j ≠ i := fun e => n1 e.symm
  have n2' : k ≠ j := fun e => n2 e.symm
  have n3' : k ≠ i := fun e => n3 e.symm
  simp only [collideAll, collideAllIn, List.map, List.foldl]
  rw [collideStep_skip ops j j _ le_rfl, collideStep_skip ops j i _ (le_of_lt hij),
    collideStep_hit ops j k _ b c hjk (by simp [lookup]) (by simp [lookup, n2, n3])]
  have e1 : setPlayer k (resolvePair ops b c).2 (setPlayer j (resolvePair ops b c).1
      [(j, b), (i, a), (k, c)]) = [(j, (resolvePair ops b c).1), (i, a), (k, (resolvePair ops b c).2)] := by
    simp [setPlayer, n1, n2, n3, n2']
  rw [e1, collideStep_hit ops i j _ a (resolvePair ops b c).1 hij (by simp [lookup, n1'])
    (by simp [lookup])]
  have e2 : setPlayer j (resolvePair ops a (resolvePair ops b c).1).2
      (setPlayer i (resolvePair ops a (resolvePair ops b c).1).1
        [(j, (resolvePair ops b c).1), (i, a), (k, (resolvePair ops b c).2)]) =
      [(j, (resolvePair ops a (resolvePair ops b c).1).2),
        (i, (resolvePair ops a (resolvePair ops b c).1).1), (k, (resolvePair ops b c).2)] := by
    simp [setPlayer, n1, n1', n2', n3']
  rw [e2, collideStep_skip ops i i _ le_rfl,
    collideStep_hit ops i k _ (resolvePair ops a (resolvePair ops b c).1).1 (resolvePair ops b c).2
      hik (by simp [lookup, n1']) (by simp [lookup, n2, n3])]
  rw [collideStep_skip ops k j _ (le_of_lt hjk), collideStep_skip ops k i _ (le_of_lt hik),
    collideStep_skip ops k k _ le_rfl]
  simp [setPlayer, n1, n1', n2, n2', n3, n3']

theorem collideStep_of_no_collision (ops : MathOps K) (i j : String)
    (ps : List (String × Player K)) (hnd : (ps.map Prod.fst).Nodup)
    (hno : ∀ e₁ e₂, e₁ ∈ ps → e₂ ∈ ps → e₁.1 ≠ e₂.1 → ¬ collides ops e₁.2 e₂.2) :
    collideStep ops i j ps = ps := by
  unfold collideStep
  by_cases h : i ≥ j
  · rw [if_pos h]
  · rw [if_neg h]
    cases ha : lookup i ps with
    | none => rfl
    | some a =>
      cases hb : lookup j ps with
      | none => rfl
      | some b =>
        simp only
        have hr := resolvePair_of_not_collides ops a b
          (hno (i, a) (j, b) (mem_of_lookup ps i a ha) (mem_of_lookup ps j b hb)
            (fun e => h (le_of_eq e.symm)))
        rw [hr]
        simp only
        rw [setPlayer_of_lookup i a ps hnd ha, setPlayer_of_lookup j b ps hnd hb]

theorem foldl_fixed {α β : Type} (f : β → α → β) (b : β) (l : List α)
    (h : ∀ x, f b x = b) : l.foldl f b = b := by
  induction l with
  | nil => rfl
  | cons x rest ih => rw [List.foldl_cons, h x, ih]

end OrderLemmas

/-! ## The collision loops under every order of each `range` statement, and with the
divisions checked -/

section RangeOrderTableLemmas

variable {K : Type}

/-- A map read does not depend on the order of the table. -/
theorem lookup_perm (k : String) (ps qs : List (String × Player K)) (h : ps.Perm qs)
    (hnd : (ps.map Prod.fst).Nodup) : lookup k ps = lookup k qs := by
  have hnd' : (qs.map Prod.fst).Nodup := (h.map Prod.fst).nodup_iff.mp hnd
  cases hp : lookup k ps with
  | none =>
    have h1 := (lookup_eq_none_iff k ps).mp hp
    have h2 : k ∉ qs.map Prod.fst := fun hk => h1 ((h.map Prod.fst).mem_iff.mpr hk)
    exact ((lookup_eq_none_iff k qs).mpr h2).symm
  | some v =>
    have h1 := mem_of_lookup ps k v hp
    exact (lookup_of_mem qs hnd' k v (h.mem_iff.mp h1)).symm

end RangeOrderTableLemmas

section RangeOrderLemmas

variable {K : Type} [LinearOrderedField K]

/-- A division by a non-zero divisor passes the check. -/
theorem divChecked_of_ne (x d : K) (h : d ≠ 0) : divChecked x d = some (x / d) := by
  unfold divChecked
  rw [if_neg h]

theorem divChecked_zero (x : K) : divChecked x 0 = none := by
  unfold divChecked
  rw [if_pos rfl]

theorem resolvePairChecked_eq (ops : MathOps K) (a b : Player K) :
    resolvePairChecked ops a b = some (resolvePair ops a b) := by
  unfold resolvePairChecked resolvePair
  by_cases h : collides ops a b
  · have hd : pairDist ops a b ≠ 0 := ne_of_gt h.2
    simp only [if_pos h, divChecked_of_ne _ _ hd, Option.some_bind]
  · simp only [if_neg h]

theorem collideStepChecked_eq (ops : MathOps K) (idA idB : String)
    (ps : List (String × Player K)) :
    collideStepChecked ops idA idB ps = some (collideStep ops idA idB ps) := by
  unfold collideStepChecked collideStep
  by_cases h : idA ≥ idB
  · rw [if_pos h, if_pos h]
  · rw [if_neg h, if_neg h]
    cases ha : lookup idA ps with
    | none => rfl
    | some a =>
      cases hb : lookup idB ps with
      | none => rfl
      | some b =>
        simp only [resolvePairChecked_eq, Option.map_some']

theorem foldlM_some {α β : Type} (f : β → α → Option β) (g : β → α → β)
    (h : ∀ b x, f b x = some (g b x)) (l : List α) (b : β) :
    l.foldlM f b = some (l.foldl g b) := by
  induction l generalizing b with
  | nil => rfl
  | cons x rest ih =>
    rw [List.foldlM_cons, h b x, List.foldl_cons]
    exact ih (g b x)

theorem collideAllInChecked_eq (ops : MathOps K) (outer : List String)
    (inner : String → List String) (ps : List (String × Player K)) :
    collideAllInChecked ops outer inner ps = some (collideAllIn ops outer inner ps) := by
  unfold collideAllInChecked collideAllIn
  apply foldlM_some
  intro acc idA
  apply foldlM_some
  intro acc2 idB
  exact collideStepChecked_eq ops idA idB acc2

theorem TickInChecked_eq (ops : MathOps K) (outer : List String)
    (inner : String → List String) (st : GameState K) :
    TickInChecked ops outer inner st = some (TickIn ops outer inner st) := by
  unfold TickInChecked TickIn
  simp only [collideAllInChecked_eq, Option.map_some']

theorem Tick_eq_TickIn (ops : MathOps K) (st : GameState K) :
    Tick ops st = TickIn ops (st.Players.map Prod.fst) (fun _ => st.Players.map Prod.fst) st := by
  unfold Tick TickIn collideAll
  simp only [List.map_map]
  rfl

theorem perm_pair_cases {α : Type} (l : List α) (i j : α) (h : l.Perm [i, j]) :
    l = [i, j] ∨ l = [j, i] := by
  have hlen := h.length_eq
  match l, hlen with
  | [x, y], _ =>
    have hx : x ∈ [i, j] := h.mem_iff.mp (List.mem_cons_self _ _)
    have hy : y ∈ [i, j] := h.mem_iff.mp (List.mem_cons_of_mem _ (List.mem_cons_self _ _))
    have hi : i ∈ [x, y] := h.mem_iff.mpr (List.mem_cons_self _ _)
    have hj : j ∈ [x, y] := h.mem_iff.mpr (List.mem_cons_of_mem _ (List.mem_cons_self _ _))
    simp only [List.mem_cons, List.mem_singleton, List.not_mem_nil, or_false] at hx hy hi hj
    rcases hx with rfl | rfl
    · rcases hy with rfl | rfl
      · rcases hj with rfl | rfl
        · exact Or.inl rfl
        · exact Or.inl rfl
      · exact Or.inl rfl
    · rcases hy with rfl | rfl
      · exact Or.inr rfl
      · rcases hi with rfl | rfl
        · exact Or.inl rfl
        · exact Or.inl rfl

theorem innerFold_low (ops : MathOps K) (i j : String) (l : List String)
    (ps : List (String × Player K)) (hl : l.Perm [i, j]) :
    l.foldl (fun acc idB => collideStep ops i idB acc) ps = collideStep ops i j ps := by
  rcases perm_pair_cases l i j hl with h | h
  · rw [h]
    simp only [List.foldl]
    rw [collideStep_skip ops i i ps le_rfl]
  · rw [h]
    simp only [List.foldl]
    rw [collideStep_skip ops i i _ le_rfl]

theorem innerFold_high (ops : MathOps K) (i j : String) (l : List String)
    (ps : List (String × Player K)) (hij : i < j) (hl : l.Perm [i, j]) :
    l.foldl (fun acc idB => collideStep ops j idB acc) ps = ps := by
  rcases perm_pair_cases l i j hl with h | h
  · rw [h]
    simp only [List.foldl]
    rw [collideStep_skip ops j i ps (le_of_lt hij), collideStep_skip ops j j ps le_rfl]
  · rw [h]
    simp only [List.foldl]
    rw [collideStep_skip ops j j ps le_rfl, collideStep_skip ops j i ps (le_of_lt hij)]

/-- With two keys `i < j`, whatever the order of each `range` statement, the collision loops
resolve the pair `(i, j)` once and do nothing else. -/
theorem collideAllIn_pair (ops : MathOps K) (i j : String) (outer : List String)
    (inner : String → List String) (ps : List (String × Player K)) (hij : i < j)
    (ho : outer.Perm [i, j]) (hi : (inner i).Perm [i, j]) (hj : (inner j).Perm [i, j]) :
    collideAllIn ops outer inner ps = collideStep ops i j ps := by
  unfold collideAllIn
  rcases perm_pair_cases outer i j ho with h | h
  · rw [h]
    simp only [List.foldl]
    rw [innerFold_low ops i j (inner i) ps hi, innerFold_high ops i j (inner j) _ hij hj]
  · rw [h]
    simp only [List.foldl]
    rw [innerFold_high ops i j (inner j) ps hij hj, innerFold_low ops i j (inner i) ps hi]

theorem collideAllIn_of_no_collision (ops : MathOps K) (outer : List String)
    (inner : String → List String) (ps : List (String × Player K))
    (hnd : (ps.map Prod.fst).Nodup)
    (hno : ∀ e₁ e₂, e₁ ∈ ps → e₂ ∈ ps → e₁.1 ≠ e₂.1 → ¬ collides ops e₁.2 e₂.2) :
    collideAllIn ops outer inner ps = ps := by
  unfold collideAllIn
  apply foldl_fixed
  intro i
  apply foldl_fixed
  intro j
  exact collideStep_of_no_collision ops i j ps hnd hno

theorem TickIn_of_no_collision (ops : MathOps K) (outer : List String)
    (inner : String → List String) (st : GameState K)
    (hnd : (st.Players.map Prod.fst).Nodup)
    (hno : ∀ e₁ e₂, e₁ ∈ st.Players → e₂ ∈ st.Players → e₁.1 ≠ e₂.1 →
      ¬ collides ops (integrate e₁.2) (integrate e₂.2)) :
    (TickIn ops outer inner st).Players = st.Players.map (fun e => (e.1, integrate e.2)) := by
  unfold TickIn
  simp only
  apply collideAllIn_of_no_collision
  · rw [List.map_map]
    exact hnd
  · intro e₁ e₂ h₁ h₂
    obtain ⟨x₁, hx₁, rfl⟩ := List.mem_map.mp h₁
    obtain ⟨x₂, hx₂, rfl⟩ := List.mem_map.mp h₂
    exact hno x₁ x₂ hx₁ hx₂

theorem collideStep_perm (ops : MathOps K) (i j : String) (ps qs : List (String × Player K))
    (h : ps.Perm qs) (hnd : (ps.map Prod.fst).Nodup) :
    (collideStep ops i j ps).Perm (collideStep ops i j qs) := by
  unfold collideStep
  by_cases hge : i ≥ j
  · rw [if_pos hge, if_pos hge]
    exact h
  · rw [if_neg hge, if_neg hge, ← lookup_perm i ps qs h hnd, ← lookup_perm j ps qs h hnd]
    cases lookup i ps with
    | none => exact h
    | some a =>
      cases lookup j ps with
      | none => exact h
      | some b =>
        simp only
        unfold setPlayer
        exact (h.map _).map _

theorem keys_nodup_of_perm_pair (i j : String) (a b : Player K)
    (ps : List (String × Player K)) (hij : i ≠ j) (h : ps.Perm [(i, a), (j, b)]) :
    ((ps.map (fun e => (e.1, integrate e.2))).map Prod.fst).Nodup := by
  rw [List.map_map]
  have h2 : (ps.map (Prod.fst ∘ fun e : String × Player K => (e.1, integrate e.2))).Perm [i, j] :=
    h.map _
  exact h2.nodup_iff.mpr (by simp [hij])

theorem TickIn_pair_perm (ops : MathOps K) (i j : String) (a b : Player K) (n : Int)
    (ps₁ ps₂ : List (String × Player K)) (outer₁ outer₂ : List String)
    (inner₁ inner₂ : String → List String) (hij : i < j)
    (h₁ : ps₁.Perm [(i, a), (j, b)]) (h₂ : ps₂.Perm [(i, a), (j, b)])
    (ho₁ : outer₁.Perm [i, j]) (ho₂ : outer₂.Perm [i, j])
    (hi₁ : (inner₁ i).Perm [i, j]) (hj₁ : (inner₁ j).Perm [i, j])
    (hi₂ : (inner₂ i).Perm [i, j]) (hj₂ : (inner₂ j).Perm [i, j]) :
    (TickIn ops outer₁ inner₁ { Players := ps₁, PlayerCount := n }).Players.Perm
      (TickIn ops outer₂ inner₂ { Players := ps₂, PlayerCount := n }).Players := by
  unfold TickIn
  simp only
  rw [collideAllIn_pair ops i j outer₁ inner₁ _ hij ho₁ hi₁ hj₁,
    collideAllIn_pair ops i j outer₂ inner₂ _ hij ho₂ hi₂ hj₂]
  apply collideStep_perm
  · exact (h₁.trans h₂.symm).map _
  · exact keys_nodup_of_perm_pair i j a b ps₁ (ne_of_lt hij) h₁

end RangeOrderLemmas

section SequenceClaims

variable {K : Type}

/-- C21: in every state reached from the empty store by a finite sequence of `AddPlayer`
calls whose identifier is not in the table at the time of the call and `RemovePlayer` calls
with any identifier, `PlayerCount` equals the number of participants in the table and their
`PlayerNum` values are a permutation of `1..N`. -/
theorem C21_counter_and_numbering_invariant (calls : List (LifecycleCall K))
    (hfresh : freshCalls (NewGameState K) calls) :
    (runCalls (NewGameState K) calls).PlayerCount
      = ((runCalls (NewGameState K) calls).Players.length : Int) ∧
    ((runCalls (NewGameState K) calls).Players.map (fun e => e.2.PlayerNum)).Perm
      ((List.range (runCalls (NewGameState K) calls).Players.length).map
        (fun i : Nat => (i : Int) + 1)) :=
  (numbered_runCalls calls (NewGameState K) numbered_empty hfresh).2

/-- C21 at a concrete input: A and B join, an absent identifier and then A are removed, C
joins; B and C end with the numbers 1 and 2 and `PlayerCount` is 2. -/
theorem C21_counter_and_numbering_invariant_witness :
    runCalls (NewGameState ℚ)
        [.add (guest "A" "" 0 0) 1 1, .add (guest "B" "bob" 0 0) 2 2, .remove "zz",
          .remove "A", .add (guest "C" "" 0 0) 3 3]
      = { Players := [("B", guest "B" "Player 1" 1 2), ("C", guest "C" "Player 2" 2 3)],
          PlayerCount := 2 } ∧
    ((runCalls (NewGameState ℚ)
        [.add (guest "A" "" 0 0) 1 1, .add (guest "B" "bob" 0 0) 2 2, .remove "zz",
          .remove "A", .add (guest "C" "" 0 0) 3 3]).PlayerCount
      = ((runCalls (NewGameState ℚ)
        [.add (guest "A" "" 0 0) 1 1, .add (guest "B" "bob" 0 0) 2 2, .remove "zz",
          .remove "A", .add (guest "C" "" 0 0) 3 3]).Players.length : Int) ∧
    ((runCalls (NewGameState ℚ)
        [.add (guest "A" "" 0 0) 1 1, .add (guest "B" "bob" 0 0) 2 2, .remove "zz",
          .remove "A", .add (guest "C" "" 0 0) 3 3]).Players.map (fun e => e.2.PlayerNum)).Perm
      ((List.range (runCalls (NewGameState ℚ)
        [.add (guest "A" "" 0 0) 1 1, .add (guest "B" "bob" 0 0) 2 2, .remove "zz",
          .remove "A", .add (guest "C" "" 0 0) 3 3]).Players.length).map
        (fun i : Nat => (i : Int) + 1))) :=
  ⟨by decide, C21_counter_and_numbering_invariant _ (by decide)⟩

end SequenceClaims

section OrderClaims

variable {K : Type} [LinearOrderedField K]

/-- C22 fails as stated: three participants on a line at `x = 100, 120, 130`, the same table
enumerated as `a, b, c` and as `b, a, c`.  The first order resolves `(a, b)` before `(b, c)`
and ends with `a` at `95`; the second resolves `(b, c)` first and ends with `a` at `90`. -/
theorem C22_tick_depends_on_enumeration_order :
    List.Perm [("b", body "b" 120 300 0 0), ("a", body "a" 100 300 0 0),
        ("c", body "c" 130 300 0 0)]
      [("a", body "a" 100 300 0 0), ("b", body "b" 120 300 0 0),
        ("c", body "c" 130 300 0 0)] ∧
    (Tick ratOps (lined [("a", body "a" 100 300 0 0), ("b", body "b" 120 300 0 0),
        ("c", body "c" 130 300 0 0)])).Players
      = [("a", body "a" 95 300 0 0), ("b", body "b" (225 / 2) 300 0 0),
          ("c", body "c" (285 / 2) 300 0 0)] ∧
    (Tick ratOps (lined [("b", body "b" 120 300 0 0), ("a", body "a" 100 300 0 0),
        ("c", body "c" 130 300 0 0)])).Players
      = [("b", body "b" 120 300 0 0), ("a", body "a" 90 300 0 0),
          ("c", body "c" 140 300 0 0)] ∧
    (body "a" 95 300 0 0).X ≠ (body "a" 90 300 0 0).X := by
  have ja : integrate (body "a" 100 300 0 0) = body "a" 100 300 0 0 := by
    rw [integrate_body]; norm_num [clampAxis, bounceAxis]
  have jb : integrate (body "b" 120 300 0 0) = body "b" 120 300 0 0 := by
    rw [integrate_body]; norm_num [clampAxis, bounceAxis]
  have jc : integrate (body "c" 130 300 0 0) = body "c" 130 300 0 0 := by
    rw [integrate_body]; norm_num [clampAxis, bounceAxis]
  have r1 : resolvePair ratOps (body "a" 100 300 0 0) (body "b" 120 300 0 0)
      = (body "a" 95 300 0 0, body "b" 125 300 0 0) := by
    rw [resolvePair_ratOps_hit _ _ 20 (by norm_num) (by norm_num) (by norm_num [distSq, body])]
    norm_num [body]
  have r2 : resolvePair ratOps (body "a" 95 300 0 0) (body "c" 130 300 0 0)
      = (body "a" 95 300 0 0, body "c" 130 300 0 0) :=
    resolvePair_ratOps_miss _ _ 35 (by norm_num) (Or.inr (by norm_num)) (by norm_num [distSq, body])
  have r3 : resolvePair ratOps (body "b" 125 300 0 0) (body "c" 130 300 0 0)
      = (body "b" (225 / 2) 300 0 0, body "c" (285 / 2) 300 0 0) := by
    rw [resolvePair_ratOps_hit _ _ 5 (by norm_num) (by norm_num) (by norm_num [distSq, body])]
    norm_num [body]
  have s1 : resolvePair ratOps (body "b" 120 300 0 0) (body "c" 130 300 0 0)
      = (body "b" 110 300 0 0, body "c" 140 300 0 0) := by
    rw [resolvePair_ratOps_hit _ _ 10 (by norm_num) (by norm_num) (by norm_num [distSq, body])]
    norm_num [body]
  have s2 : resolvePair ratOps (body "a" 100 300 0 0) (body "b" 110 300 0 0)
      = (body "a" 90 300 0 0, body "b" 120 300 0 0) := by
    rw [resolvePair_ratOps_hit _ _ 10 (by norm_num) (by norm_num) (by norm_num [distSq, body])]
    norm_num [body]
  have s3 : resolvePair ratOps (body "a" 90 300 0 0) (body "c" 140 300 0 0)
      = (body "a" 90 300 0 0, body "c" 140 300 0 0) :=
    resolvePair_ratOps_miss _ _ 50 (by norm_num) (Or.inr (by norm_num)) (by norm_num [distSq, body])
  refine ⟨List.Perm.swap _ _ _, ?_, ?_, by norm_num [body]⟩
  · simp only [Tick, lined, List.map]
    rw [ja, jb, jc, collideAll_three _ _ _ _ _ _ _ str_a_lt_b str_b_lt_c, r1]
    simp only [r2, r3]
  · simp only [Tick, lined, List.map]
    rw [ja, jb, jc, collideAll_three_bac _ _ _ _ _ _ _ str_a_lt_b str_b_lt_c, s1]
    simp only [s2, s3]

/-- C22 as amended: the table produced by `Tick` is the same whatever order the table is
enumerated in, at each `range` statement on its own (the order of the table for the integration
loop, the order `outer` of the outer collision loop, and the order `inner idA` of the inner
collision loop run for each outer key `idA`), (1) for every state with exactly two
participants, and (2) for every state, with any number of participants under distinct keys, in
which no two participants collide after integration and wall handling. -/
theorem C22_tick_order_independent_cases (ops : MathOps K) :
    (∀ (i j : String) (a b : Player K) (n : Int) (ps₁ ps₂ : List (String × Player K))
        (outer₁ outer₂ : List String) (inner₁ inner₂ : String → List String), i ≠ j →
      ps₁.Perm [(i, a), (j, b)] → ps₂.Perm [(i, a), (j, b)] →
      outer₁.Perm [i, j] → outer₂.Perm [i, j] →
      (inner₁ i).Perm [i, j] → (inner₁ j).Perm [i, j] →
      (inner₂ i).Perm [i, j] → (inner₂ j).Perm [i, j] →
      (TickIn ops outer₁ inner₁ { Players := ps₁, PlayerCount := n }).Players.Perm
        (TickIn ops outer₂ inner₂ { Players := ps₂, PlayerCount := n }).Players) ∧
    (∀ (st₁ st₂ : GameState K) (outer₁ outer₂ : List String)
        (inner₁ inner₂ : String → List String), st₁.Players.Perm st₂.Players →
      (st₁.Players.map Prod.fst).Nodup →
      (∀ e₁ e₂, e₁ ∈ st₁.Players → e₂ ∈ st₁.Players → e₁.1 ≠ e₂.1 →
        ¬ collides ops (integrate e₁.2) (integrate e₂.2)) →
      (TickIn ops outer₁ inner₁ st₁).Players.Perm (TickIn ops outer₂ inner₂ st₂).Players) := by
  refine ⟨?_, ?_⟩
  · intro i j a b n ps₁ ps₂ outer₁ outer₂ inner₁ inner₂ hij h₁ h₂ ho₁ ho₂ hi₁ hj₁ hi₂ hj₂
    rcases lt_or_gt_of_ne hij with h | h
    · exact TickIn_pair_perm ops i j a b n ps₁ ps₂ outer₁ outer₂ inner₁ inner₂ h h₁ h₂
        ho₁ ho₂ hi₁ hj₁ hi₂ hj₂
    · have sw : ∀ {α : Type} (l : List α) (x y : α), l.Perm [x, y] → l.Perm [y, x] :=
        fun l x y hl => hl.trans (List.Perm.swap _ _ _)
      exact TickIn_pair_perm ops j i b a n ps₁ ps₂ outer₁ outer₂ inner₁ inner₂ h
        (sw _ _ _ h₁) (sw _ _ _ h₂) (sw _ _ _ ho₁) (sw _ _ _ ho₂)
        (sw _ _ _ hj₁) (sw _ _ _ hi₁) (sw _ _ _ hj₂) (sw _ _ _ hi₂)
  · intro st₁ st₂ outer₁ outer₂ inner₁ inner₂ hperm hnd hno
    have hnd₂ : (st₂.Players.map Prod.fst).Nodup := (hperm.map Prod.fst).nodup_iff.mp hnd
    have hno₂ : ∀ e₁ e₂, e₁ ∈ st₂.Players → e₂ ∈ st₂.Players → e₁.1 ≠ e₂.1 →
        ¬ collides ops (integrate e₁.2) (integrate e₂.2) :=
      fun e₁ e₂ h₁ h₂ => hno e₁ e₂ (hperm.mem_iff.mpr h₁) (hperm.mem_iff.mpr h₂)
    rw [TickIn_of_no_collision ops outer₁ inner₁ st₁ hnd hno,
      TickIn_of_no_collision ops outer₂ inner₂ st₂ hnd₂ hno₂]
    exact hperm.map _

/-- C22 (amended) at a concrete input: two overlapping participants at `x = 100` and
`x = 120`.  With every `range` statement in the order `a, b` and with every one in the order
`b, a` the participants end at `x = 95` and `x = 125`. -/
theorem C22_tick_order_independent_cases_witness :
    (Tick ratOps { Players := [("a", body "a" 100 300 0 0), ("b", body "b" 120 300 0 0)],
                   PlayerCount := 2 }).Players
      = [("a", body "a" 95 300 0 0), ("b", body "b" 125 300 0 0)] ∧
    (TickIn ratOps ["b", "a"] (fun _ => ["b", "a"])
        { Players := [("b", body "b" 120 300 0 0), ("a", body "a" 100 300 0 0)],
          PlayerCount := 2 }).Players
      = [("b", body "b" 125 300 0 0), ("a", body "a" 95 300 0 0)] ∧
    (TickIn ratOps ["b", "a"] (fun _ => ["b", "a"])
        { Players := [("b", body "b" 120 300 0 0), ("a", body "a" 100 300 0 0)],
          PlayerCount := 2 }).Players.Perm
      (TickIn ratOps ["a", "b"] (fun _ => ["a", "b"])
        { Players := [("a", body "a" 100 300 0 0), ("b", body "b" 120 300 0 0)],
          PlayerCount := 2 }).Players := by
  have ja : integrate (body "a" 100 300 0 0) = body "a" 100 300 0 0 := by
    rw [integrate_body]; norm_num [clampAxis, bounceAxis]
  have jb : integrate (body "b" 120 300 0 0) = body "b" 120 300 0 0 := by
    rw [integrate_body]; norm_num [clampAxis, bounceAxis]
  have hba : ¬ ("b" = "a") := by decide
  have hab : ¬ ("a" = "b") := by decide
  refine ⟨?_, ?_, (C22_tick_order_independent_cases ratOps).1 "a" "b" (body "a" 100 300 0 0)
    (body "b" 120 300 0 0) 2 _ _ _ _ _ _ (by decide) (List.Perm.swap _ _ _) (List.Perm.refl _)
    (List.Perm.swap _ _ _) (List.Perm.refl _) (List.Perm.swap _ _ _) (List.Perm.swap _ _ _)
    (List.Perm.refl _) (List.Perm.refl _)⟩
  · rw [Tick_two_lt _ _ _ _ _ _ str_a_lt_b, ja, jb,
      resolvePair_ratOps_hit _ _ 20 (by norm_num) (by norm_num) (by norm_num [distSq, body])]
    norm_num [body]
  · unfold TickIn
    simp only [List.map, ja, jb]
    rw [collideAllIn_pair ratOps "a" "b" _ _ _ str_a_lt_b (List.Perm.swap _ _ _)
      (List.Perm.swap _ _ _) (List.Perm.swap _ _ _)]
    rw [collideStep_hit ratOps "a" "b" _ (body "a" 100 300 0 0) (body "b" 120 300 0 0)
      str_a_lt_b (by simp [lookup, hab, hba]) (by simp [lookup, hab, hba]),
      resolvePair_ratOps_hit _ _ 20 (by norm_num) (by norm_num) (by norm_num [distSq, body])]
    norm_num [body, setPlayer, hab, hba]

end OrderClaims

/-! ## Claims on degenerate pairs -/

section DegenerateClaims

variable {K : Type} [LinearOrderedField K]

/-- C7: degenerate pairs are skipped, and no division by the zero distance is evaluated.
With `math.Sqrt(0) = 0`: (1) for a pair whose centres coincide the distance `dist` is `0`, the
guard `dist < minDistance && dist > 0` fails, and the loop body returns the pair unmodified
without evaluating a division (`resolvePairChecked`, which is `none` as soon as a division by
a zero `dist` is evaluated, returns the pair); (2) for every pair the loop body evaluates no
division by zero and the checked body returns what `resolvePair` returns; (3) so does a whole
`Tick`, in every state and whatever order each `range` statement yields the keys in; (4) for
two participants at the same in-arena position with zero velocity, `Tick` returns the state
unchanged, in every order and without a division by zero. -/
theorem C7_degenerate_pair_skipped (ops : MathOps K) (h0 : ops.sqrt 0 = 0) :
    (∀ a b : Player K, a.X = b.X → a.Y = b.Y →
      pairDist ops a b = 0 ∧ ¬ collides ops a b ∧
      resolvePairChecked ops a b = some (a, b) ∧ resolvePair ops a b = (a, b)) ∧
    (∀ a b : Player K, resolvePairChecked ops a b = some (resolvePair ops a b)) ∧
    (∀ (outer : List String) (inner : String → List String) (st : GameState K),
      TickInChecked ops outer inner st = some (TickIn ops outer inner st)) ∧
    (∀ (i j : String) (a b : Player K) (n : Int), i ≠ j → a.X = b.X → a.Y = b.Y → inArena a →
      a.Vx = 0 → a.Vy = 0 → b.Vx = 0 → b.Vy = 0 →
      Tick ops { Players := [(i, a), (j, b)], PlayerCount := n }
          = { Players := [(i, a), (j, b)], PlayerCount := n } ∧
        ∀ (outer : List String) (inner : String → List String),
          TickInChecked ops outer inner { Players := [(i, a), (j, b)], PlayerCount := n }
            = some { Players := [(i, a), (j, b)], PlayerCount := n }) := by
  have hco : ∀ a b : Player K, a.X = b.X → a.Y = b.Y → resolvePair ops a b = (a, b) :=
    fun a b hx hy => resolvePair_coincident ops h0 a b hx hy
  have hd0 : ∀ p q : Player K, p.X = q.X → p.Y = q.Y → pairDist ops p q = 0 := by
    intro p q hpx hpy
    unfold pairDist
    rw [hpx, hpy]
    simp [h0]
  have hnc : ∀ p q : Player K, p.X = q.X → p.Y = q.Y → ¬ collides ops p q := by
    intro p q hpx hpy hc
    exact absurd hc.2 (by rw [hd0 p q hpx hpy]; exact lt_irrefl 0)
  refine ⟨fun a b hx hy => ⟨hd0 a b hx hy, hnc a b hx hy, ?_, hco a b hx hy⟩,
    resolvePairChecked_eq ops, TickInChecked_eq ops, ?_⟩
  · rw [resolvePairChecked_eq, hco a b hx hy]
  · intro i j a b n hij hx hy ha hax hay hbx hby
    have hb : inArena b := by
      unfold inArena at ha ⊢
      rw [← hx, ← hy]
      exact ha
    have ia := integrate_rest a ha hax hay
    have ib := integrate_rest b hb hbx hby
    have hnd : (({ Players := [(i, a), (j, b)], PlayerCount := n } : GameState K).Players.map
        Prod.fst).Nodup := by
      simp [hij]
    have hno : ∀ e₁ e₂ : String × Player K,
        e₁ ∈ ({ Players := [(i, a), (j, b)], PlayerCount := n } : GameState K).Players →
        e₂ ∈ ({ Players := [(i, a), (j, b)], PlayerCount := n } : GameState K).Players →
        e₁.1 ≠ e₂.1 → ¬ collides ops (integrate e₁.2) (integrate e₂.2) := by
      intro e₁ e₂ h₁ h₂ _
      have c₁ : e₁ = (i, a) ∨ e₁ = (j, b) := by simpa using h₁
      have c₂ : e₂ = (i, a) ∨ e₂ = (j, b) := by simpa using h₂
      rcases c₁ with rfl | rfl <;> rcases c₂ with rfl | rfl
      · exact hnc _ _ rfl rfl
      · rw [ia, ib]; exact hnc _ _ hx hy
      · rw [ia, ib]; exact hnc _ _ hx.symm hy.symm
      · exact hnc _ _ rfl rfl
    have hin : ∀ (outer : List String) (inner : String → List String),
        TickIn ops outer inner { Players := [(i, a), (j, b)], PlayerCount := n }
          = { Players := [(i, a), (j, b)], PlayerCount := n } := by
      intro outer inner
      have e := TickIn_of_no_collision ops outer inner _ hnd hno
      simp only [List.map, ia, ib] at e
      have e2 : (TickIn ops outer inner
          { Players := [(i, a), (j, b)], PlayerCount := n }).PlayerCount = n := rfl
      cases hT : TickIn ops outer inner { Players := [(i, a), (j, b)], PlayerCount := n } with
      | mk ps c =>
        rw [hT] at e e2
        simp only at e e2
        rw [e, e2]
    refine ⟨?_, fun outer inner => ?_⟩
    · rw [Tick_eq_TickIn]
      exact hin _ _
    · rw [TickInChecked_eq, hin]

/-- C7 at a concrete input: two participants at rest at `(100, 100)`.  The distance is `0`, a
division by it would be a division by zero (`divChecked` gives `none`), the loop body returns
the pair without evaluating one, and `Tick` returns the state unchanged, also when the outer
loop yields `b` before `a`. -/
theorem C7_degenerate_pair_skipped_witness :
    ratOps.sqrt 0 = 0 ∧
    pairDist ratOps (body "a" 100 100 0 0) (body "b" 100 100 0 0) = 0 ∧
    divChecked (0 : ℚ) (pairDist ratOps (body "a" 100 100 0 0) (body "b" 100 100 0 0)) = none ∧
    resolvePairChecked ratOps (body "a" 100 100 0 0) (body "b" 100 100 0 0)
      = some (body "a" 100 100 0 0, body "b" 100 100 0 0) ∧
    Tick ratOps { Players := [("a", body "a" 100 100 0 0), ("b", body "b" 100 100 0 0)],
                  PlayerCount := 2 }
      = { Players := [("a", body "a" 100 100 0 0), ("b", body "b" 100 100 0 0)],
          PlayerCount := 2 } ∧
    TickInChecked ratOps ["b", "a"] (fun _ => ["a", "b"])
        { Players := [("a", body "a" 100 100 0 0), ("b", body "b" 100 100 0 0)],
          PlayerCount := 2 }
      = some { Players := [("a", body "a" 100 100 0 0), ("b", body "b" 100 100 0 0)],
               PlayerCount := 2 } := by
  have h := C7_degenerate_pair_skipped ratOps ratOps_sqrt_zero
  have h1 := h.1 (body "a" 100 100 0 0) (body "b" 100 100 0 0) rfl rfl
  have h4 := h.2.2.2 "a" "b" (body "a" 100 100 0 0) (body "b" 100 100 0 0) 2 (by decide) rfl rfl
    (by norm_num [inArena, body]) rfl rfl rfl rfl
  refine ⟨ratOps_sqrt_zero, h1.1, ?_, h1.2.2.1, h4.1, h4.2 _ _⟩
  rw [h1.1]
  exact divChecked_zero 0

end DegenerateClaims

end Game
